import Mathlib

/-!
Verification of the `gather_nd` reference kernel from
`ngraph/core/reference/include/ngraph/runtime/reference/gather_nd.hpp`.

The development shallowly embeds the kernel: shapes are lists of naturals,
buffers are Lean lists, the `std::copy` write into the caller-owned output
buffer is modelled by an in-place positional `store` (a write past the end of
the modelled buffer leaves the buffer unchanged, matching the fact that such a
write in C++ corrupts foreign memory, not the buffer's own cells), and the two
`std::domain_error` throws are modelled by an `Except` result, so that an error
return carries no output buffer at all (the C++ kernel throws before the first
copy).  Signed index arithmetic is carried out in `Int`; the C++ kernel widens
to `size_t`, which agrees with `Int` whenever the resolved coordinate is
non-negative (out-of-range coordinates are undefined behaviour by contract).
-/

namespace NGraph

/-- A shape: ordered list of dimension extents (`ngraph::Shape`). -/
abbrev Shape := List Nat

/-- `shape_size`: product of the extents; the empty shape has size 1. -/
def shape_size (s : Shape) : Nat := s.prod

/-- Model of the internal `Span` view over the shape vector: it remembers the
underlying vector together with begin/end positions.  `Span::operator[]` does
no bounds check against `stop`, it simply dereferences `begin + idx`; the model
therefore indexes the base vector at `start + idx` (default 0 once the read
leaves even the base vector, which for the kernel's reads never happens on
validated inputs — see the safety claim below). -/
structure Span where
  base : List Nat
  start : Nat
  stop : Nat
  deriving Repr, DecidableEq

/-- `Span::operator[]`: unchecked read at `begin + idx` of the base vector. -/
def Span.get (sp : Span) (idx : Nat) : Nat := sp.base.getD (sp.start + idx) 0

/-- `Span::size()`: `std::distance(m_begin, m_end)` (non-negative here). -/
def Span.size (sp : Span) : Nat := sp.stop - sp.start

/-- The list of elements the span designates. -/
def Span.toList (sp : Span) : List Nat := (sp.base.drop sp.start).take (sp.stop - sp.start)

/-- Recursive core of `get_indices_offsets`.  The C++ routine walks the input
range front-to-back while filling the offsets vector back-to-front, so the
offset at position `i` is `dims[L-1-i] * offsets[i+1]` with terminal entry
`last_slice_size`; equivalently, on the *reversed* range it is the list of
suffix products scaled by `last_slice_size`, which is what this helper
computes. -/
def get_indices_offsets_aux (last_slice_size : Nat) : List Nat → List Nat
  | [] => [last_slice_size]
  | d :: ds =>
    let rest := get_indices_offsets_aux last_slice_size ds
    d * rest.headD last_slice_size :: rest

/-- `get_indices_offsets(beg, end, last_slice_size)`: from the range
`[beg, end)` of dimension extents build the offset (stride) table of length
`distance(beg, end) + 1` whose entry `i` equals `dims[L-1-i] * offsets[i+1]`
and whose final entry is `last_slice_size`. -/
def get_indices_offsets (dims : List Nat) (last_slice_size : Nat) : List Nat :=
  get_indices_offsets_aux last_slice_size dims.reverse

/-- The two `std::domain_error` kinds thrown by `gather_nd`: the out-shape /
batch-prefix mismatches, and the insufficient-rank failure. -/
inductive GatherError where
  | shapeMismatch
  | insufficientRank
  deriving Repr, DecidableEq

/-- `indices_shape.back()`: the coordinate-tuple width (0 as the out-of-contract
default for an empty shape, which the C++ never evaluates on valid inputs). -/
def coordinates_size_of (indices_shape : Shape) : Nat := indices_shape.getLastD 0

/-- `batch_size`: `shape_size` of the first `batch_dims` extents of
`params_shape`. -/
def batch_size_of (params_shape : Shape) (batch_dims : Nat) : Nat :=
  shape_size (params_shape.take batch_dims)

/-- `first_slice_index_in_params = batch_dims + indices_shape.back()`. -/
def first_slice_index_in_params_of (params_shape indices_shape : Shape) (batch_dims : Nat) : Nat :=
  batch_dims + coordinates_size_of indices_shape

/-- `slice_shape`: the extents of `params_shape` past
`first_slice_index_in_params`. -/
def slice_shape_of (params_shape indices_shape : Shape) (batch_dims : Nat) : List Nat :=
  params_shape.drop (first_slice_index_in_params_of params_shape indices_shape batch_dims)

/-- `slice_size = shape_size(slice_shape)`. -/
def slice_size_of (params_shape indices_shape : Shape) (batch_dims : Nat) : Nat :=
  shape_size (slice_shape_of params_shape indices_shape batch_dims)

/-- The range `[dims_begin, dims_end)` handed to `get_indices_offsets` by
`gather_nd`: starting from `rbegin(params_shape)` skip `slice_shape.size()`
extents, then take `indices_shape.back() - 1` extents of the reversed shape. -/
def dims_of (params_shape indices_shape : Shape) (batch_dims : Nat) : List Nat :=
  (params_shape.reverse.drop
      (params_shape.length - first_slice_index_in_params_of params_shape indices_shape batch_dims)).take
    (coordinates_size_of indices_shape - 1)

/-- The offset table `indices_offsets` computed by `gather_nd`. -/
def indices_offsets_of (params_shape indices_shape : Shape) (batch_dims : Nat) : List Nat :=
  get_indices_offsets (dims_of params_shape indices_shape batch_dims)
    (slice_size_of params_shape indices_shape batch_dims)

/-- `batch_offset = indices_offsets.front() * params_shape[batch_dims]`. -/
def batch_offset_of (params_shape indices_shape : Shape) (batch_dims : Nat) : Nat :=
  (indices_offsets_of params_shape indices_shape batch_dims).headD 0 *
    params_shape.getD batch_dims 0

/-- `k_1_indices = span(begin(indices_shape) + batch_dims, prev(end(indices_shape)))`. -/
def k_1_indices_of (indices_shape : Shape) (batch_dims : Nat) : Span :=
  ⟨indices_shape, batch_dims, indices_shape.length - 1⟩

/-- `k_1_params = span(begin(params_shape) + batch_dims, prev(end(params_shape)))`. -/
def k_1_params_of (params_shape : Shape) (batch_dims : Nat) : Span :=
  ⟨params_shape, batch_dims, params_shape.length - 1⟩

/-- `number_of_slices_to_copy_in_one_batch = shape_size(k_1_indices)`. -/
def slices_per_batch_of (indices_shape : Shape) (batch_dims : Nat) : Nat :=
  shape_size (k_1_indices_of indices_shape batch_dims).toList

/-- The ternary `i_c < 0 ? k_1_params[c] + i_c : i_c` resolving one (possibly
negative) coordinate component against the extent of its params axis. -/
def resolved_index (params_shape : Shape) (batch_dims c : Nat) (i_c : Int) : Int :=
  if i_c < 0 then ((k_1_params_of params_shape batch_dims).get c : Int) + i_c else i_c

/-- The inner coordinate loop of `gather_nd`: starting from
`input_batch_offset = batch * batch_offset`, accumulate
`index * indices_offsets[c]` over the coordinate tuple addressed by
`(batch, slice)` in the indices buffer. -/
def input_slice_offset_of (indices : List Int) (params_shape indices_shape : Shape)
    (batch_dims batch slice : Nat) : Int :=
  (List.range (coordinates_size_of indices_shape)).foldl
    (fun off c =>
      off +
        resolved_index params_shape batch_dims c
            (indices.getD
              (batch * slices_per_batch_of indices_shape batch_dims *
                    coordinates_size_of indices_shape +
                  slice * coordinates_size_of indices_shape +
                c)
              0) *
          ((indices_offsets_of params_shape indices_shape batch_dims).getD c 0 : Int))
    ((batch * batch_offset_of params_shape indices_shape batch_dims : Nat) : Int)

/-- Model of `std::copy(src.begin(), src.end(), out.begin() + d)`: write the
elements of `src` into the buffer at consecutive positions starting at `d`.
`List.set` past the end of the buffer is the identity, so a write outside the
modelled buffer leaves the buffer's own cells unchanged. -/
def store : List α → Nat → List α → List α
  | out, _, [] => out
  | out, d, x :: xs => store (out.set d x) (d + 1) xs

/-- The `slice_size` elements read from `params` for one `(batch, slice)` pair:
`params[input_slice_offset + j]` for `j < slice_size` (a read past the end of
the params buffer — undefined behaviour in C++ — yields `default`). -/
def slice_data [Inhabited α] (params : List α) (indices : List Int)
    (params_shape indices_shape : Shape) (batch_dims batch slice : Nat) : List α :=
  (List.range (slice_size_of params_shape indices_shape batch_dims)).map
    (fun j =>
      params.getD
        ((input_slice_offset_of indices params_shape indices_shape batch_dims batch slice).toNat
          + j)
        default)

/-- `gather_nd`: validation (two `ShapeMismatch` checks then the
`InsufficientRank` check, in the source's order), followed by the batched copy
loop.  The returned buffer is the caller's `out` with every slice stored at its
destination offset `batch * number_of_slices * slice_size + slice * slice_size`. -/
def gather_nd [Inhabited α] (params : List α) (indices : List Int) (out : List α)
    (params_shape indices_shape out_shape : Shape) (batch_dims : Nat := 0) :
    Except GatherError (List α) :=
  if batch_dims ≠ 0 ∧ batch_size_of params_shape batch_dims ≠ out_shape.headD 0 then
    .error .shapeMismatch
  else if params_shape.take batch_dims ≠ indices_shape.take batch_dims then
    .error .shapeMismatch
  else if ¬ first_slice_index_in_params_of params_shape indices_shape batch_dims ≤
      params_shape.length then
    .error .insufficientRank
  else
    .ok <|
      (List.range (batch_size_of params_shape batch_dims)).foldl
        (fun acc batch =>
          (List.range (slices_per_batch_of indices_shape batch_dims)).foldl
            (fun acc2 slice =>
              store acc2
                (batch * slices_per_batch_of indices_shape batch_dims *
                      slice_size_of params_shape indices_shape batch_dims +
                    slice * slice_size_of params_shape indices_shape batch_dims)
                (slice_data params indices params_shape indices_shape batch_dims batch slice))
            acc)
        out

/-- The concatenation, in batch-major then slice-major then element order, of
all slice payloads the copy loop writes.  The copy loop stores payload
`(batch, slice)` at destination offset
`batch * number_of_slices * slice_size + slice * slice_size`, so the loop as a
whole stores this list at offset 0 of `out` (proved below). -/
def gather_payload [Inhabited α] (params : List α) (indices : List Int)
    (params_shape indices_shape : Shape) (batch_dims : Nat) : List α :=
  (List.range (batch_size_of params_shape batch_dims)).flatMap fun batch =>
    (List.range (slices_per_batch_of indices_shape batch_dims)).flatMap fun slice =>
      slice_data params indices params_shape indices_shape batch_dims batch slice

/-- The destination offsets written by the copy loop, in write order. -/
def gather_write_positions (params_shape indices_shape : Shape) (batch_dims : Nat) : List Nat :=
  (List.range (batch_size_of params_shape batch_dims)).flatMap fun batch =>
    (List.range (slices_per_batch_of indices_shape batch_dims)).flatMap fun slice =>
      (List.range (slice_size_of params_shape indices_shape batch_dims)).map fun j =>
        batch * slices_per_batch_of indices_shape batch_dims *
              slice_size_of params_shape indices_shape batch_dims +
            slice * slice_size_of params_shape indices_shape batch_dims +
          j

section ListLemmas

variable {α : Type u}

theorem getD_set_self (l : List α) (i : Nat) (a d : α) (h : i < l.length) :
    (l.set i a).getD i d = a := by
  simp [List.getD_eq_getElem?_getD, List.getElem?_set_self h]

theorem getD_set_ne (l : List α) {i j : Nat} (a d : α) (h : i ≠ j) :
    (l.set i a).getD j d = l.getD j d := by
  simp [List.getD_eq_getElem?_getD, List.getElem?_set_ne h]

theorem set_oob (l : List α) (i : Nat) (a : α) (h : l.length ≤ i) : l.set i a = l := by
  induction l generalizing i with
  | nil => rfl
  | cons x xs ih =>
    cases i with
    | zero => exact absurd h (by simp)
    | succ i => simpa [List.set] using ih (i := i) (by simpa using h)

theorem getD_drop (l : List α) (m i : Nat) (d : α) : (l.drop m).getD i d = l.getD (m + i) d := by
  simp [List.getD_eq_getElem?_getD, List.getElem?_drop]

theorem getD_take (l : List α) {m i : Nat} (d : α) (h : i < m) :
    (l.take m).getD i d = l.getD i d := by
  simp [List.getD_eq_getElem?_getD, List.getElem?_take, h]

theorem getD_append_left (l l2 : List α) (d : α) {n : Nat} (h : n < l.length) :
    (l ++ l2).getD n d = l.getD n d := by
  simp [List.getD_eq_getElem?_getD, List.getElem?_append, h]

theorem getD_append_right (l l2 : List α) (d : α) (n : Nat) :
    (l ++ l2).getD (l.length + n) d = l2.getD n d := by
  rw [List.getD_eq_getElem?_getD, List.getElem?_append, if_neg (by omega)]
  simp [List.getD_eq_getElem?_getD]

theorem length_store (xs : List α) : ∀ (out : List α) (d : Nat),
    (store out d xs).length = out.length := by
  induction xs with
  | nil => intro out d; rfl
  | cons x xs ih => intro out d; rw [store, ih, List.length_set]

theorem store_append (xs : List α) : ∀ (ys out : List α) (d : Nat),
    store out d (xs ++ ys) = store (store out d xs) (d + xs.length) ys := by
  induction xs with
  | nil => intro ys out d; simp [store]
  | cons x xs ih =>
    intro ys out d
    have harith : d + 1 + xs.length = d + (xs.length + 1) := by omega
    simp only [List.cons_append, store, List.length_cons, List.append_eq]
    rw [ih, harith]

theorem getD_store_lt (xs : List α) : ∀ (out : List α) (d p : Nat) (dflt : α), p < d →
    (store out d xs).getD p dflt = out.getD p dflt := by
  induction xs with
  | nil => intro out d p dflt _; rfl
  | cons x xs ih =>
    intro out d p dflt h
    rw [store, ih _ _ _ _ (by omega), getD_set_ne _ _ _ (by omega)]

theorem getD_store_ge (xs : List α) : ∀ (out : List α) (d p : Nat) (dflt : α),
    d + xs.length ≤ p → (store out d xs).getD p dflt = out.getD p dflt := by
  induction xs with
  | nil => intro out d p dflt _; rfl
  | cons x xs ih =>
    intro out d p dflt h
    simp only [List.length_cons] at h
    rw [store, ih _ _ _ _ (by omega), getD_set_ne _ _ _ (by omega)]

theorem getD_store_at (xs : List α) : ∀ (out : List α) (d j : Nat) (dflt : α),
    j < xs.length → d + j < out.length →
    (store out d xs).getD (d + j) dflt = xs.getD j dflt := by
  induction xs with
  | nil => intro out d j dflt h _; exact absurd h (by simp)
  | cons x xs ih =>
    intro out d j dflt hj hb
    cases j with
    | zero =>
      rw [store, getD_store_lt _ _ _ _ _ (by omega)]
      simpa using getD_set_self out d x dflt (by omega)
    | succ j =>
      have : d + (j + 1) = (d + 1) + j := by omega
      rw [store, this, ih _ _ _ _ (by simpa using hj) (by rw [List.length_set]; omega)]
      simp

theorem flatMap_ext {β : Type v} (l : List α) (f g : α → List β)
    (h : ∀ a ∈ l, f a = g a) : l.flatMap f = l.flatMap g := by
  induction l with
  | nil => rfl
  | cons x xs ih =>
    simp only [List.flatMap_cons]
    rw [h x (by simp), ih (fun a ha => h a (by simp [ha]))]

theorem length_flatMap_uniform {β : Type v} (f : Nat → List β) (L : Nat) : ∀ (n : Nat),
    (∀ s < n, (f s).length = L) → ((List.range n).flatMap f).length = n * L := by
  intro n
  induction n with
  | zero => intro _; simp
  | succ n ih =>
    intro hf
    rw [List.range_succ, List.flatMap_append, List.length_append,
      ih (fun s hs => hf s (by omega)), List.flatMap_singleton, hf n (by omega)]
    ring

theorem flatMap_range_getD {β : Type v} [Inhabited β] (f : Nat → List β) (L : Nat) :
    ∀ (n s j : Nat), (∀ i < n, (f i).length = L) → s < n → j < L →
    ((List.range n).flatMap f).getD (s * L + j) default = (f s).getD j default := by
  intro n
  induction n with
  | zero => intro s j _ hs _; omega
  | succ n ih =>
    intro s j hf hs hj
    rw [List.range_succ, List.flatMap_append, List.flatMap_singleton]
    rcases Nat.lt_or_ge s n with hlt | hge
    · rw [getD_append_left _ _ _ (by
        rw [length_flatMap_uniform f L n (fun i hi => hf i (by omega))]
        calc s * L + j < s * L + L := by omega
          _ = (s + 1) * L := by ring
          _ ≤ n * L := Nat.mul_le_mul_right L (by omega))]
      exact ih s j (fun i hi => hf i (by omega)) hlt hj
    · have hsn : s = n := by omega
      subst hsn
      have hlen : ((List.range s).flatMap f).length = s * L :=
        length_flatMap_uniform f L s (fun i hi => hf i (by omega))
      calc ((List.range s).flatMap f ++ f s).getD (s * L + j) default
          = ((List.range s).flatMap f ++ f s).getD (((List.range s).flatMap f).length + j)
            default := by rw [hlen]
        _ = (f s).getD j default := getD_append_right _ _ _ j

theorem foldl_store_range (f : Nat → List α) (L : Nat) :
    ∀ (n : Nat) (acc : List α) (d : Nat), (∀ s < n, (f s).length = L) →
    (List.range n).foldl (fun a s => store a (d + s * L) (f s)) acc
      = store acc d ((List.range n).flatMap f) := by
  intro n
  induction n with
  | zero => intro acc d _; rfl
  | succ n ih =>
    intro acc d hf
    rw [List.range_succ, List.foldl_append, List.flatMap_append, List.flatMap_singleton,
      ih acc d (fun s hs => hf s (by omega)), store_append,
      length_flatMap_uniform f L n (fun s hs => hf s (by omega))]
    rfl

theorem foldl_add_eq_sum (g : Nat → Int) : ∀ (n : Nat) (init : Int),
    (List.range n).foldl (fun off c => off + g c) init
      = init + ∑ c ∈ Finset.range n, g c := by
  intro n
  induction n with
  | zero => intro init; simp
  | succ n ih =>
    intro init
    rw [List.range_succ, List.foldl_append, ih, Finset.sum_range_succ]
    simp only [List.foldl_cons, List.foldl_nil]
    ring

theorem map_ext {β : Type v} (l : List α) (f g : α → β) (h : ∀ a ∈ l, f a = g a) :
    l.map f = l.map g :=
  List.map_congr_left h

theorem getD_oob (l : List α) (p : Nat) (d : α) (h : l.length ≤ p) : l.getD p d = d := by
  rw [List.getD_eq_getElem?_getD, List.getElem?_eq_none h]
  rfl

theorem range_flatMap_mul (L : Nat) : ∀ (n : Nat),
    (List.range n).flatMap (fun s => (List.range L).map (fun j => s * L + j))
      = List.range (n * L) := by
  intro n
  induction n with
  | zero => simp
  | succ n ih =>
    rw [List.range_succ, List.flatMap_append, ih, List.flatMap_singleton,
      show (n + 1) * L = n * L + L from by ring, List.range_add]

theorem getLastD_drop (l : List α) (n : Nat) (d : α) (h : n < l.length) :
    (l.drop n).getLastD d = l.getLastD d := by
  rw [List.getLastD_eq_getLast?, List.getLastD_eq_getLast?, List.getLast?_drop,
    if_neg (by omega)]

theorem store_all [Inhabited α] (xs out : List α) (h : xs.length = out.length) :
    store out 0 xs = xs := by
  apply List.ext_getElem (by rw [length_store]; omega)
  intro p hp1 hp2
  have h0 := getD_store_at xs out 0 p default (by omega) (by omega)
  simp only [Nat.zero_add] at h0
  rw [List.getD_eq_getElem _ default hp1, List.getD_eq_getElem _ default hp2] at h0
  exact h0

theorem flatMap_range_segment [Inhabited α] (f : Nat → List α) (L : Nat) (n b : Nat)
    (hf : ∀ i < n, (f i).length = L) (hb : b < n) :
    (((List.range n).flatMap f).drop (b * L)).take L = f b := by
  have htot : ((List.range n).flatMap f).length = n * L := length_flatMap_uniform f L n hf
  have hbound : b * L + L ≤ n * L := by
    calc b * L + L = (b + 1) * L := by ring
      _ ≤ n * L := Nat.mul_le_mul_right _ (by omega)
  apply List.ext_getElem
  · rw [List.length_take, List.length_drop, htot, hf b hb]
    omega
  · intro p hp1 hp2
    have hpL : p < L := by
      rw [List.length_take] at hp1
      omega
    have e1 : ((((List.range n).flatMap f).drop (b * L)).take L).getD p default
        = ((List.range n).flatMap f).getD (b * L + p) default := by
      rw [getD_take _ default hpL, getD_drop]
    have e2 : ((List.range n).flatMap f).getD (b * L + p) default = (f b).getD p default :=
      flatMap_range_getD f L n b p hf hb hpL
    rw [List.getD_eq_getElem _ default hp1, List.getD_eq_getElem _ default hp2] at *
    rw [e1, e2]

theorem dot_lt_prod (q : List Nat) : ∀ (k : Nat), k ≤ q.length → ∀ (r : Nat → Nat),
    (∀ c < k, r c < q.getD c 0) →
    (∑ c ∈ Finset.range k, r c * (q.drop (c + 1)).prod) + (q.drop k).prod ≤ q.prod := by
  intro k
  induction k with
  | zero => intro _ r _; simp
  | succ k ih =>
    intro hk r hr
    rw [Finset.sum_range_succ]
    have hklt : k < q.length := by omega
    have hq : (q.drop k).prod = q.getD k 0 * (q.drop (k + 1)).prod := by
      rw [List.drop_eq_getElem_cons hklt, List.prod_cons, List.getD_eq_getElem q 0 hklt]
    have hstep : r k * (q.drop (k + 1)).prod + (q.drop (k + 1)).prod ≤ (q.drop k).prod := by
      rw [hq]
      calc r k * (q.drop (k + 1)).prod + (q.drop (k + 1)).prod
          = (r k + 1) * (q.drop (k + 1)).prod := by ring
        _ ≤ q.getD k 0 * (q.drop (k + 1)).prod :=
            Nat.mul_le_mul_right _ (hr k (by omega))
    have htail := ih (by omega) r (fun c hc => hr c (by omega))
    omega

end ListLemmas

section OffsetTable

theorem get_indices_offsets_aux_length (last_slice_size : Nat) (l : List Nat) :
    (get_indices_offsets_aux last_slice_size l).length = l.length + 1 := by
  induction l with
  | nil => rfl
  | cons d ds ih => simp [get_indices_offsets_aux, ih]

theorem get_indices_offsets_aux_headD (last_slice_size : Nat) (l : List Nat) : ∀ (x : Nat),
    (get_indices_offsets_aux last_slice_size l).headD x = l.prod * last_slice_size := by
  induction l with
  | nil => intro x; simp [get_indices_offsets_aux]
  | cons d ds ih =>
    intro x
    simp only [get_indices_offsets_aux, List.headD_cons]
    rw [ih last_slice_size, List.prod_cons, Nat.mul_assoc]

theorem get_indices_offsets_aux_getD (last_slice_size : Nat) (l : List Nat) :
    ∀ i ≤ l.length, (get_indices_offsets_aux last_slice_size l).getD i 0
      = (l.drop i).prod * last_slice_size := by
  induction l with
  | nil =>
    intro i hi
    have : i = 0 := by simpa using hi
    subst this
    simp [get_indices_offsets_aux]
  | cons d ds ih =>
    intro i hi
    cases i with
    | zero =>
      simp only [get_indices_offsets_aux, List.getD_cons_zero, List.drop_zero]
      rw [get_indices_offsets_aux_headD, List.prod_cons, Nat.mul_assoc]
    | succ i =>
      simp only [get_indices_offsets_aux, List.getD_cons_succ, List.drop_succ_cons]
      exact ih i (by simpa using hi)

theorem get_indices_offsets_aux_getLastD (last_slice_size : Nat) (l : List Nat) : ∀ (x : Nat),
    (get_indices_offsets_aux last_slice_size l).getLastD x = last_slice_size := by
  induction l with
  | nil => intro x; rfl
  | cons d ds ih =>
    intro x
    simp only [get_indices_offsets_aux]
    rw [List.getLastD_cons]
    exact ih _

theorem get_indices_offsets_length (dims : List Nat) (last_slice_size : Nat) :
    (get_indices_offsets dims last_slice_size).length = dims.length + 1 := by
  unfold get_indices_offsets
  rw [get_indices_offsets_aux_length, List.length_reverse]

theorem get_indices_offsets_getLastD (dims : List Nat) (last_slice_size x : Nat) :
    (get_indices_offsets dims last_slice_size).getLastD x = last_slice_size :=
  get_indices_offsets_aux_getLastD last_slice_size dims.reverse x

theorem dims_of_length (params_shape indices_shape : Shape) (batch_dims : Nat)
    (h3 : first_slice_index_in_params_of params_shape indices_shape batch_dims ≤
      params_shape.length) :
    (dims_of params_shape indices_shape batch_dims).length
      = coordinates_size_of indices_shape - 1 := by
  unfold dims_of
  rw [List.length_take, List.length_drop, List.length_reverse]
  have : params_shape.length -
      (params_shape.length -
        first_slice_index_in_params_of params_shape indices_shape batch_dims)
      = first_slice_index_in_params_of params_shape indices_shape batch_dims := by omega
  rw [this]
  unfold first_slice_index_in_params_of at *
  omega

theorem dims_of_reverse (params_shape indices_shape : Shape) (batch_dims : Nat)
    (hcw : 1 ≤ coordinates_size_of indices_shape)
    (h3 : first_slice_index_in_params_of params_shape indices_shape batch_dims ≤
      params_shape.length) :
    (dims_of params_shape indices_shape batch_dims).reverse
      = (params_shape.drop (batch_dims + 1)).take (coordinates_size_of indices_shape - 1) := by
  unfold dims_of
  rw [← List.reverse_take]
  have hlen : (params_shape.take
      (first_slice_index_in_params_of params_shape indices_shape batch_dims)).length
      = first_slice_index_in_params_of params_shape indices_shape batch_dims := by
    rw [List.length_take]
    omega
  have hdrop : ((params_shape.take
        (first_slice_index_in_params_of params_shape indices_shape batch_dims)).drop
          (batch_dims + 1)).reverse
      = ((params_shape.take
          (first_slice_index_in_params_of params_shape indices_shape batch_dims)).reverse).take
            (coordinates_size_of indices_shape - 1) := by
    rw [List.reverse_drop, hlen]
    congr 1
    unfold first_slice_index_in_params_of at *
    omega
  rw [← hdrop, List.reverse_reverse, List.drop_take]
  congr 1
  unfold first_slice_index_in_params_of at *
  omega

theorem indices_offsets_getD_prod (params_shape indices_shape : Shape) (batch_dims c : Nat)
    (h3 : first_slice_index_in_params_of params_shape indices_shape batch_dims ≤
      params_shape.length)
    (hc : c < coordinates_size_of indices_shape) :
    (indices_offsets_of params_shape indices_shape batch_dims).getD c 0
      = (params_shape.drop (batch_dims + 1 + c)).prod := by
  unfold indices_offsets_of get_indices_offsets
  rw [get_indices_offsets_aux_getD _ _ c
    (by rw [List.length_reverse, dims_of_length params_shape indices_shape batch_dims h3]; omega)]
  rw [dims_of_reverse params_shape indices_shape batch_dims (by omega) h3, List.drop_take,
    List.drop_drop]
  have hdd : (params_shape.drop (batch_dims + 1 + c)).drop
        (coordinates_size_of indices_shape - 1 - c)
      = params_shape.drop
          (first_slice_index_in_params_of params_shape indices_shape batch_dims) := by
    rw [List.drop_drop]
    congr 1
    unfold first_slice_index_in_params_of
    omega
  unfold slice_size_of slice_shape_of shape_size
  rw [← hdd]
  exact List.prod_take_mul_prod_drop _ _

theorem indices_offsets_headD_prod (params_shape indices_shape : Shape) (batch_dims : Nat)
    (hcw : 1 ≤ coordinates_size_of indices_shape)
    (h3 : first_slice_index_in_params_of params_shape indices_shape batch_dims ≤
      params_shape.length) :
    (indices_offsets_of params_shape indices_shape batch_dims).headD 0
      = (params_shape.drop (batch_dims + 1)).prod := by
  unfold indices_offsets_of get_indices_offsets
  rw [get_indices_offsets_aux_headD,
    dims_of_reverse params_shape indices_shape batch_dims hcw h3]
  have hdd : (params_shape.drop (batch_dims + 1)).drop
        (coordinates_size_of indices_shape - 1)
      = params_shape.drop
          (first_slice_index_in_params_of params_shape indices_shape batch_dims) := by
    rw [List.drop_drop]
    congr 1
    unfold first_slice_index_in_params_of
    omega
  unfold slice_size_of slice_shape_of shape_size
  rw [← hdd]
  exact List.prod_take_mul_prod_drop _ _

theorem batch_offset_eq_prod (params_shape indices_shape : Shape) (batch_dims : Nat)
    (hcw : 1 ≤ coordinates_size_of indices_shape)
    (h3 : first_slice_index_in_params_of params_shape indices_shape batch_dims ≤
      params_shape.length) :
    batch_offset_of params_shape indices_shape batch_dims
      = (params_shape.drop batch_dims).prod := by
  have hbd : batch_dims < params_shape.length := by
    unfold first_slice_index_in_params_of at h3
    omega
  unfold batch_offset_of
  rw [indices_offsets_headD_prod params_shape indices_shape batch_dims hcw h3,
    List.drop_eq_getElem_cons hbd, List.prod_cons, List.getD_eq_getElem params_shape 0 hbd]
  ring

end OffsetTable

section BatchSplitGeometry

variable (params_shape indices_shape : Shape) (batch_dims : Nat)

theorem coordinates_size_drop (hbdi : batch_dims < indices_shape.length) :
    coordinates_size_of (indices_shape.drop batch_dims)
      = coordinates_size_of indices_shape :=
  getLastD_drop indices_shape batch_dims 0 hbdi

theorem first_slice_index_drop (hbdi : batch_dims < indices_shape.length) :
    first_slice_index_in_params_of (params_shape.drop batch_dims)
        (indices_shape.drop batch_dims) 0
      = coordinates_size_of indices_shape := by
  unfold first_slice_index_in_params_of
  rw [coordinates_size_drop indices_shape batch_dims hbdi]
  omega

theorem slice_size_drop (hbdi : batch_dims < indices_shape.length) :
    slice_size_of (params_shape.drop batch_dims) (indices_shape.drop batch_dims) 0
      = slice_size_of params_shape indices_shape batch_dims := by
  unfold slice_size_of slice_shape_of
  rw [first_slice_index_drop params_shape indices_shape batch_dims hbdi, List.drop_drop]
  rfl

theorem slices_per_batch_drop (hbdi : batch_dims < indices_shape.length) :
    slices_per_batch_of (indices_shape.drop batch_dims) 0
      = slices_per_batch_of indices_shape batch_dims := by
  unfold slices_per_batch_of k_1_indices_of Span.toList shape_size
  rw [List.drop_zero, List.length_drop, Nat.sub_zero,
    show indices_shape.length - batch_dims - 1
      = indices_shape.length - 1 - batch_dims from by omega]

theorem dims_drop (hcw : 1 ≤ coordinates_size_of indices_shape)
    (h2 : first_slice_index_in_params_of params_shape indices_shape batch_dims ≤
      params_shape.length)
    (hbdi : batch_dims < indices_shape.length) :
    dims_of (params_shape.drop batch_dims) (indices_shape.drop batch_dims) 0
      = dims_of params_shape indices_shape batch_dims := by
  have hps2 : first_slice_index_in_params_of (params_shape.drop batch_dims)
      (indices_shape.drop batch_dims) 0 ≤ (params_shape.drop batch_dims).length := by
    rw [first_slice_index_drop params_shape indices_shape batch_dims hbdi,
      List.length_drop]
    unfold first_slice_index_in_params_of at h2
    omega
  have r1 := dims_of_reverse (params_shape.drop batch_dims) (indices_shape.drop batch_dims) 0
    (by rw [coordinates_size_drop indices_shape batch_dims hbdi]; exact hcw) hps2
  have r2 := dims_of_reverse params_shape indices_shape batch_dims hcw h2
  rw [coordinates_size_drop indices_shape batch_dims hbdi, Nat.zero_add,
    List.drop_drop] at r1
  exact List.reverse_injective (r1.trans r2.symm)

theorem indices_offsets_drop (hcw : 1 ≤ coordinates_size_of indices_shape)
    (h2 : first_slice_index_in_params_of params_shape indices_shape batch_dims ≤
      params_shape.length)
    (hbdi : batch_dims < indices_shape.length) :
    indices_offsets_of (params_shape.drop batch_dims) (indices_shape.drop batch_dims) 0
      = indices_offsets_of params_shape indices_shape batch_dims := by
  unfold indices_offsets_of
  rw [dims_drop params_shape indices_shape batch_dims hcw h2 hbdi,
    slice_size_drop params_shape indices_shape batch_dims hbdi]

theorem k_1_params_get_drop (c : Nat) :
    (k_1_params_of (params_shape.drop batch_dims) 0).get c
      = (k_1_params_of params_shape batch_dims).get c := by
  show (params_shape.drop batch_dims).getD (0 + c) 0 = params_shape.getD (batch_dims + c) 0
  rw [Nat.zero_add, getD_drop]

theorem resolved_index_drop (c : Nat) (i_c : Int) :
    resolved_index (params_shape.drop batch_dims) 0 c i_c
      = resolved_index params_shape batch_dims c i_c := by
  unfold resolved_index
  rw [k_1_params_get_drop params_shape batch_dims c]

end BatchSplitGeometry

theorem length_slice_data [Inhabited α] (params : List α) (indices : List Int)
    (params_shape indices_shape : Shape) (batch_dims batch slice : Nat) :
    (slice_data params indices params_shape indices_shape batch_dims batch slice).length
      = slice_size_of params_shape indices_shape batch_dims := by
  simp [slice_data]

/-- Closed form of a successful `gather_nd` call: when the three validation
checks pass, the call returns `out` with the full batch-major payload stored
starting at offset 0. -/
theorem gather_nd_eq_store [Inhabited α] (params : List α) (indices : List Int)
    (out : List α) (params_shape indices_shape out_shape : Shape) (batch_dims : Nat)
    (h1 : ¬(batch_dims ≠ 0 ∧
      batch_size_of params_shape batch_dims ≠ out_shape.headD 0))
    (h2 : params_shape.take batch_dims = indices_shape.take batch_dims)
    (h3 : first_slice_index_in_params_of params_shape indices_shape batch_dims ≤
      params_shape.length) :
    gather_nd params indices out params_shape indices_shape out_shape batch_dims
      = .ok (store out 0 (gather_payload params indices params_shape indices_shape batch_dims)) := by
  unfold gather_nd
  rw [if_neg h1, if_neg (by simpa using h2), if_neg (by simpa using h3)]
  congr 1
  unfold gather_payload
  have hinner : ∀ (acc : List α) (batch : Nat),
      (List.range (slices_per_batch_of indices_shape batch_dims)).foldl
        (fun acc2 slice =>
          store acc2
            (batch * slices_per_batch_of indices_shape batch_dims *
                  slice_size_of params_shape indices_shape batch_dims +
                slice * slice_size_of params_shape indices_shape batch_dims)
            (slice_data params indices params_shape indices_shape batch_dims batch slice))
        acc
      = store acc
          (0 + batch *
            (slices_per_batch_of indices_shape batch_dims *
              slice_size_of params_shape indices_shape batch_dims))
          ((List.range (slices_per_batch_of indices_shape batch_dims)).flatMap
            (fun slice => slice_data params indices params_shape indices_shape batch_dims batch slice)) := by
    intro acc batch
    rw [foldl_store_range
      (fun slice => slice_data params indices params_shape indices_shape batch_dims batch slice)
      (slice_size_of params_shape indices_shape batch_dims)
      (slices_per_batch_of indices_shape batch_dims) acc
      (batch * slices_per_batch_of indices_shape batch_dims *
        slice_size_of params_shape indices_shape batch_dims)
      (fun s _ => length_slice_data params indices params_shape indices_shape batch_dims batch s)]
    rw [Nat.zero_add, Nat.mul_assoc]
  rw [List.foldl_ext _ _ out (fun acc batch _ => hinner acc batch)]
  exact foldl_store_range _
    (slices_per_batch_of indices_shape batch_dims *
      slice_size_of params_shape indices_shape batch_dims)
    (batch_size_of params_shape batch_dims) out 0
    (fun batch _ => length_flatMap_uniform _ _ _
      (fun s _ => length_slice_data params indices params_shape indices_shape batch_dims batch s))

/-- C3: an input whose first `batch_dims` dimensions of `params_shape` and
`indices_shape` are not pairwise equal makes `gather_nd` fail with
`ShapeMismatch` (whichever of the two mismatch checks fires first, the error
kind is the same), and — the general fail-fast property — any error result of
`gather_nd` is determined by the shape metadata alone: the same shapes yield
the same error for arbitrary `params`/`indices`/`out` buffers, so no element
is ever copied (the `Except` model returns an error before the copy loop and
`out` is untouched). -/
theorem gather_nd_batch_mismatch_fails [Inhabited α] (params : List α) (indices : List Int)
    (out : List α) (params_shape indices_shape out_shape : Shape) (batch_dims : Nat)
    (h : params_shape.take batch_dims ≠ indices_shape.take batch_dims) :
    gather_nd params indices out params_shape indices_shape out_shape batch_dims
        = .error .shapeMismatch ∧
      ∀ (e : GatherError) (params2 : List α) (indices2 : List Int) (out2 : List α),
        gather_nd params indices out params_shape indices_shape out_shape batch_dims
            = .error e →
          gather_nd params2 indices2 out2 params_shape indices_shape out_shape batch_dims
            = .error e := by
  constructor
  · unfold gather_nd
    by_cases hc1 : batch_dims ≠ 0 ∧
        batch_size_of params_shape batch_dims ≠ out_shape.headD 0
    · rw [if_pos hc1]
    · rw [if_neg hc1, if_pos h]
  · intro e params2 indices2 out2 he
    unfold gather_nd at he ⊢
    by_cases hc1 : batch_dims ≠ 0 ∧
        batch_size_of params_shape batch_dims ≠ out_shape.headD 0
    · rw [if_pos hc1] at he ⊢; exact he
    · rw [if_neg hc1] at he ⊢
      by_cases hc2 : params_shape.take batch_dims ≠ indices_shape.take batch_dims
      · rw [if_pos hc2] at he ⊢; exact he
      · rw [if_neg hc2] at he ⊢
        by_cases hc3 : ¬ first_slice_index_in_params_of params_shape indices_shape batch_dims ≤
            params_shape.length
        · rw [if_pos hc3] at he ⊢; exact he
        · rw [if_neg hc3] at he; simp at he

/-- Witness for C3 at a concrete mismatched input. -/
theorem gather_nd_batch_mismatch_fails_witness :
    gather_nd ([1] : List Nat) [0] [0] [2, 3] [3, 2] [2] 1 = .error .shapeMismatch ∧
      ∀ (e : GatherError) (params2 : List Nat) (indices2 : List Int) (out2 : List Nat),
        gather_nd ([1] : List Nat) [0] [0] [2, 3] [3, 2] [2] 1 = .error e →
          gather_nd params2 indices2 out2 [2, 3] [3, 2] [2] 1 = .error e :=
  gather_nd_batch_mismatch_fails [1] [0] [0] [2, 3] [3, 2] [2] 1 (by decide)

/-- C4: given that the other two invariants hold (equal batch prefixes, and a
correct leading `out_shape` dimension when `batch_dims > 0`), `gather_nd`
returns `InsufficientRank` exactly when
`batch_dims + indices_shape.back()` exceeds the rank of `params_shape`; in the
`Except` model the error is the call's entire (synchronous) result, produced
before any copy. -/
theorem gather_nd_insufficient_rank_iff [Inhabited α] (params : List α) (indices : List Int)
    (out : List α) (params_shape indices_shape out_shape : Shape) (batch_dims : Nat)
    (h2 : params_shape.take batch_dims = indices_shape.take batch_dims)
    (h3 : batch_dims ≠ 0 → out_shape.headD 0 = batch_size_of params_shape batch_dims) :
    gather_nd params indices out params_shape indices_shape out_shape batch_dims
        = .error .insufficientRank ↔
      params_shape.length <
        first_slice_index_in_params_of params_shape indices_shape batch_dims := by
  unfold gather_nd
  rw [if_neg (by
    rintro ⟨hb, hne⟩
    exact hne (h3 hb).symm), if_neg (by simpa using h2)]
  by_cases hc : first_slice_index_in_params_of params_shape indices_shape batch_dims ≤
      params_shape.length
  · rw [if_neg (by simpa using hc)]
    constructor
    · intro he; simp at he
    · intro hlt; omega
  · rw [if_pos hc]
    constructor
    · intro _; omega
    · intro _; rfl

/-- Witness for C4: rank 1 cannot hold a width-3 coordinate. -/
theorem gather_nd_insufficient_rank_iff_witness :
    (gather_nd ([1] : List Nat) [0, 0, 0] [0] [2] [3] [1] 0 = .error .insufficientRank ↔
      ([2] : Shape).length < first_slice_index_in_params_of [2] [3] 0) ∧
      ([2] : Shape).length < first_slice_index_in_params_of [2] [3] 0 :=
  ⟨gather_nd_insufficient_rank_iff [1] [0, 0, 0] [0] [2] [3] [1] 0 (by decide) (by decide),
    by decide⟩

/-- C10: when `batch_dims = 0` the `out_shape` argument takes part in no
validation at all — `gather_nd` produces the same result for any two
`out_shape` values, and it succeeds whenever invariant 2
(`indices_shape.back() ≤ rank(params_shape)`) holds, `out_shape`
notwithstanding (invariant 1 is vacuous for `batch_dims = 0`). -/
theorem gather_nd_batch_dims_zero_ignores_out_shape [Inhabited α] (params : List α)
    (indices : List Int) (out : List α) (params_shape indices_shape osh1 osh2 : Shape) :
    gather_nd params indices out params_shape indices_shape osh1 0
        = gather_nd params indices out params_shape indices_shape osh2 0 ∧
      (coordinates_size_of indices_shape ≤ params_shape.length →
        ∃ res, gather_nd params indices out params_shape indices_shape osh1 0 = .ok res) := by
  constructor
  · unfold gather_nd
    rw [if_neg (show ¬(0 ≠ 0 ∧ batch_size_of params_shape 0 ≠ osh1.headD 0) by simp),
      if_neg (show ¬(0 ≠ 0 ∧ batch_size_of params_shape 0 ≠ osh2.headD 0) by simp),
      if_neg (show ¬(params_shape.take 0 ≠ indices_shape.take 0) by simp)]
  · intro h
    unfold gather_nd
    rw [if_neg (by simp), if_neg (by simp), if_neg (by
      simp only [not_not]
      simpa [first_slice_index_in_params_of, coordinates_size_of] using h)]
    exact ⟨_, rfl⟩

/-- Witness for C10: `out_shape = [3]` versus `out_shape = [7, 7]`; neither is
the induced output shape, yet the call succeeds and the results agree. -/
theorem gather_nd_batch_dims_zero_ignores_out_shape_witness :
    gather_nd ([5] : List Nat) [0] [9] [1] [1] [3] 0
        = gather_nd ([5] : List Nat) [0] [9] [1] [1] [7, 7] 0 ∧
      ∃ res, gather_nd ([5] : List Nat) [0] [9] [1] [1] [3] 0 = .ok res :=
  ⟨(gather_nd_batch_dims_zero_ignores_out_shape [5] [0] [9] [1] [1] [3] [7, 7]).1,
    (gather_nd_batch_dims_zero_ignores_out_shape [5] [0] [9] [1] [1] [3] [7, 7]).2 (by decide)⟩

/-- C7 counterexample: with `params_shape = [2,3,4]`, `indices_shape = [2,1]`
(as the claim literally states), `batch_dims = 0` and coordinate data `[1,2]`,
the indices buffer holds two width-1 tuples `[1]` and `[2]`, not one width-2
tuple `[1,2]`: the run writes the twelve elements of `params[1]` (truncated to
the 4-element buffer of shape `[1,4]`), which differs from the four elements
`params[1][2][0..4) = [20,21,22,23]` the claim promises. -/
theorem gather_nd_concrete_scenario_cex :
    gather_nd (List.range 24) ([1, 2] : List Int) [0, 0, 0, 0] [2, 3, 4] [2, 1] [1, 4] 0
        = .ok [12, 13, 14, 15] ∧
      (((List.range 24).drop (1 * 12 + 2 * 4)).take 4 = [20, 21, 22, 23]) ∧
      ([12, 13, 14, 15] : List Nat) ≠ [20, 21, 22, 23] :=
  ⟨rfl, by decide, by decide⟩

/-- C7 (amended): the scenario's indices shape must be `[1, 2]` — one
coordinate tuple of width 2.  With `params_shape = [2,3,4]`,
`indices_shape = [1,2]`, `batch_dims = 0` and the coordinate tuple `[1,2]`,
`gather_nd` selects `params[1][2]`, a length-4 contiguous slice
(`slice_size = 4`, one slice per batch), `out_shape = [1,4]` has exactly
4 = slices × slice_size elements, and the output equals
`params[1][2][0..4)`. -/
theorem gather_nd_concrete_scenario :
    gather_nd (List.range 24) ([1, 2] : List Int) [0, 0, 0, 0] [2, 3, 4] [1, 2] [1, 4] 0
        = .ok [20, 21, 22, 23] ∧
      (((List.range 24).drop (1 * 12 + 2 * 4)).take 4 = [20, 21, 22, 23]) ∧
      slice_size_of [2, 3, 4] [1, 2] 0 = 4 ∧
      slices_per_batch_of [1, 2] 0 = 1 ∧
      shape_size [1, 4] = 4 :=
  ⟨rfl, by decide, by decide, by decide, by decide⟩

/-- C6 counterexample: at `params_shape = [2,3,4]`, `indices_shape = [1,2]`,
`batch_dims = 0` — a validated input with coordinate width 2 — the range
`gather_nd` hands to `get_indices_offsets` has length 1 (coordinate width
minus one, the first indexed axis is excluded), not length 2 as the claim
states, and the returned offset table `[12, 4]` has 2 = coordinate_width
entries, not coordinate_width + 1 = 3. -/
theorem get_indices_offsets_arity_cex :
    first_slice_index_in_params_of [2, 3, 4] [1, 2] 0 ≤ ([2, 3, 4] : Shape).length ∧
      (dims_of [2, 3, 4] [1, 2] 0).length ≠ coordinates_size_of [1, 2] ∧
      (indices_offsets_of [2, 3, 4] [1, 2] 0).length ≠ coordinates_size_of [1, 2] + 1 ∧
      indices_offsets_of [2, 3, 4] [1, 2] 0 = [12, 4] := by
  refine ⟨by decide, by decide, by decide, by decide⟩

/-- C6 (amended): the stride/offset builder is given the reversed tail of
`params_shape` for the coordinate axes *excluding the first indexed axis*
(length `coordinate_width - 1`) plus `slice_size`, and returns an ordered
sequence of `coordinate_width` offsets whose last entry equals `slice_size`
and in which each entry at position `i` (for `i + 1 < coordinate_width`)
equals the extent of indexed axis `i + 1` (that is,
`params_shape[batch_dims + 1 + i]`) times the next offset — entry `i` being
the row-major stride of indexed axis `batch_dims + i`. -/
theorem get_indices_offsets_stride_table (params_shape indices_shape : Shape)
    (batch_dims : Nat) (hcw : 1 ≤ coordinates_size_of indices_shape)
    (h3 : first_slice_index_in_params_of params_shape indices_shape batch_dims ≤
      params_shape.length) :
    (dims_of params_shape indices_shape batch_dims).length
        = coordinates_size_of indices_shape - 1 ∧
      (indices_offsets_of params_shape indices_shape batch_dims).length
        = coordinates_size_of indices_shape ∧
      (indices_offsets_of params_shape indices_shape batch_dims).getLastD 0
        = slice_size_of params_shape indices_shape batch_dims ∧
      ∀ i, i + 1 < coordinates_size_of indices_shape →
        (indices_offsets_of params_shape indices_shape batch_dims).getD i 0
          = params_shape.getD (batch_dims + 1 + i) 0 *
              (indices_offsets_of params_shape indices_shape batch_dims).getD (i + 1) 0 := by
  refine ⟨dims_of_length params_shape indices_shape batch_dims h3, ?_, ?_, ?_⟩
  · unfold indices_offsets_of
    rw [get_indices_offsets_length, dims_of_length params_shape indices_shape batch_dims h3]
    omega
  · exact get_indices_offsets_getLastD _ _ _
  · intro i hi
    rw [indices_offsets_getD_prod params_shape indices_shape batch_dims i h3 (by omega),
      indices_offsets_getD_prod params_shape indices_shape batch_dims (i + 1) h3 (by omega)]
    have hlt : batch_dims + 1 + i < params_shape.length := by
      unfold first_slice_index_in_params_of at h3
      omega
    rw [List.drop_eq_getElem_cons hlt, List.prod_cons,
      List.getD_eq_getElem params_shape 0 hlt, show batch_dims + 1 + i + 1
        = batch_dims + 1 + (i + 1) from by omega]

/-- Witness for the amended C6 at `params_shape = [2,3,4]`,
`indices_shape = [1,2]`, `batch_dims = 0`: the table is `[12, 4]`,
`12 = 3 * 4` and the last entry is `slice_size = 4`. -/
theorem get_indices_offsets_stride_table_witness :
    (dims_of [2, 3, 4] [1, 2] 0).length = coordinates_size_of [1, 2] - 1 ∧
      (indices_offsets_of [2, 3, 4] [1, 2] 0).length = coordinates_size_of [1, 2] ∧
      (indices_offsets_of [2, 3, 4] [1, 2] 0).getLastD 0 = slice_size_of [2, 3, 4] [1, 2] 0 ∧
      ∀ i, i + 1 < coordinates_size_of [1, 2] →
        (indices_offsets_of [2, 3, 4] [1, 2] 0).getD i 0
          = ([2, 3, 4] : Shape).getD (0 + 1 + i) 0 *
              (indices_offsets_of [2, 3, 4] [1, 2] 0).getD (i + 1) 0 :=
  get_indices_offsets_stride_table [2, 3, 4] [1, 2] 0 (by decide) (by decide)

/-- C9: for every coordinate position `c < indices_shape.back()` on an input
satisfying invariant 2, the unchecked `k_1_params[c]` read used for
negative-index resolution stays inside the `params_shape` vector
(`batch_dims + c < rank`, so the read never falls back to a default — the
value is independent of the lookup default), it names exactly the extent
`params_shape[batch_dims + c]` of the axis coordinate `c` addresses, and in
the boundary case `batch_dims + indices_shape.back() = rank` the last
coordinate position `c = indices_shape.back() - 1` equals the span's size —
one past its last valid index, the span having excluded the final params
axis — yet still reads the correct axis extent. -/
theorem k_1_params_read_within_vector (params_shape indices_shape : Shape)
    (batch_dims c : Nat)
    (h2 : first_slice_index_in_params_of params_shape indices_shape batch_dims ≤
      params_shape.length)
    (hc : c < coordinates_size_of indices_shape) :
    batch_dims + c < params_shape.length ∧
      (∀ d : Nat, (k_1_params_of params_shape batch_dims).base.getD
          ((k_1_params_of params_shape batch_dims).start + c) d
        = params_shape.getD (batch_dims + c) 0) ∧
      (k_1_params_of params_shape batch_dims).get c = params_shape.getD (batch_dims + c) 0 ∧
      (∀ i_c : Int, i_c < 0 → resolved_index params_shape batch_dims c i_c
        = (params_shape.getD (batch_dims + c) 0 : Int) + i_c) ∧
      (batch_dims + coordinates_size_of indices_shape = params_shape.length →
        (k_1_params_of params_shape batch_dims).size
          = coordinates_size_of indices_shape - 1) := by
  have hlt : batch_dims + c < params_shape.length := by
    unfold first_slice_index_in_params_of at h2
    omega
  refine ⟨hlt, ?_, rfl, ?_, ?_⟩
  · intro d
    show params_shape.getD (batch_dims + c) d = params_shape.getD (batch_dims + c) 0
    rw [List.getD_eq_getElem params_shape d hlt, List.getD_eq_getElem params_shape 0 hlt]
  · intro i_c hneg
    unfold resolved_index
    rw [if_pos hneg]
    rfl
  · intro hend
    simp only [k_1_params_of, Span.size]
    omega

/-- Witness for C9 at the boundary case `batch_dims + width = rank`:
`params_shape = [2,3]`, `indices_shape = [1,2]`, `batch_dims = 0`, `c = 1`
(the span covers only `[2]`, size 1, and index 1 is one past its end). -/
theorem k_1_params_read_within_vector_witness :
    0 + 1 < ([2, 3] : Shape).length ∧
      (∀ d : Nat, (k_1_params_of [2, 3] 0).base.getD ((k_1_params_of [2, 3] 0).start + 1) d
        = ([2, 3] : Shape).getD (0 + 1) 0) ∧
      (k_1_params_of [2, 3] 0).get 1 = ([2, 3] : Shape).getD (0 + 1) 0 ∧
      (∀ i_c : Int, i_c < 0 → resolved_index [2, 3] 0 1 i_c
        = (([2, 3] : Shape).getD (0 + 1) 0 : Int) + i_c) ∧
      (0 + coordinates_size_of [1, 2] = ([2, 3] : Shape).length →
        (k_1_params_of [2, 3] 0).size = coordinates_size_of [1, 2] - 1) :=
  k_1_params_read_within_vector [2, 3] [1, 2] 0 1 (by decide) (by decide)

/-- C1: on a validated input (invariants 1–3), `gather_nd` succeeds and, for
every batch `b`, coordinate-tuple index `s` and element `j < slice_size`, the
output cell at destination offset
`b * number_of_slices * slice_size + s * slice_size + j` (batch-major, then
slice-major, then element order) holds the params element at linear source
offset `input_slice_offset + j`, where `input_slice_offset` equals the batch
base `b * batch_offset` plus the dot product of the resolved coordinate tuple
with the offset table (final conjunct).  The destination cell is required to
lie inside the `out` buffer — the C++ contract makes a too-small buffer
undefined behaviour. -/
theorem gather_nd_copies_slices [Inhabited α] (params : List α) (indices : List Int)
    (out : List α) (params_shape indices_shape out_shape : Shape) (batch_dims : Nat)
    (h1 : params_shape.take batch_dims = indices_shape.take batch_dims)
    (h2 : first_slice_index_in_params_of params_shape indices_shape batch_dims ≤
      params_shape.length)
    (h3 : batch_dims ≠ 0 → out_shape.headD 0 = batch_size_of params_shape batch_dims)
    (batch slice j : Nat)
    (hb : batch < batch_size_of params_shape batch_dims)
    (hs : slice < slices_per_batch_of indices_shape batch_dims)
    (hj : j < slice_size_of params_shape indices_shape batch_dims)
    (hout : batch * slices_per_batch_of indices_shape batch_dims *
          slice_size_of params_shape indices_shape batch_dims +
        slice * slice_size_of params_shape indices_shape batch_dims + j < out.length) :
    ∃ res, gather_nd params indices out params_shape indices_shape out_shape batch_dims
        = .ok res ∧
      res.getD (batch * slices_per_batch_of indices_shape batch_dims *
            slice_size_of params_shape indices_shape batch_dims +
          slice * slice_size_of params_shape indices_shape batch_dims + j) default
        = params.getD
            ((input_slice_offset_of indices params_shape indices_shape batch_dims batch
                slice).toNat + j) default ∧
      input_slice_offset_of indices params_shape indices_shape batch_dims batch slice
        = ((batch * batch_offset_of params_shape indices_shape batch_dims : Nat) : Int) +
            ∑ c ∈ Finset.range (coordinates_size_of indices_shape),
              resolved_index params_shape batch_dims c
                  (indices.getD
                    (batch * slices_per_batch_of indices_shape batch_dims *
                          coordinates_size_of indices_shape +
                        slice * coordinates_size_of indices_shape + c) 0) *
                ((indices_offsets_of params_shape indices_shape batch_dims).getD c 0 : Int) := by
  have hok := gather_nd_eq_store params indices out params_shape indices_shape out_shape
    batch_dims (by rintro ⟨hb0, hne⟩; exact hne (h3 hb0).symm) h1 h2
  refine ⟨_, hok, ?_, foldl_add_eq_sum _ _ _⟩
  have hN := slices_per_batch_of indices_shape batch_dims
  have hinlen : ∀ b, ((List.range (slices_per_batch_of indices_shape batch_dims)).flatMap
      (fun s => slice_data params indices params_shape indices_shape batch_dims b s)).length
      = slices_per_batch_of indices_shape batch_dims *
          slice_size_of params_shape indices_shape batch_dims := fun b =>
    length_flatMap_uniform _ _ _
      (fun s _ => length_slice_data params indices params_shape indices_shape batch_dims b s)
  have hplen : (gather_payload params indices params_shape indices_shape batch_dims).length
      = batch_size_of params_shape batch_dims *
          (slices_per_batch_of indices_shape batch_dims *
            slice_size_of params_shape indices_shape batch_dims) :=
    length_flatMap_uniform _ _ _ (fun b _ => hinlen b)
  have hpos : batch * slices_per_batch_of indices_shape batch_dims *
        slice_size_of params_shape indices_shape batch_dims +
      slice * slice_size_of params_shape indices_shape batch_dims + j
      = batch * (slices_per_batch_of indices_shape batch_dims *
          slice_size_of params_shape indices_shape batch_dims) +
        (slice * slice_size_of params_shape indices_shape batch_dims + j) := by ring
  have hposlt : slice * slice_size_of params_shape indices_shape batch_dims + j
      < slices_per_batch_of indices_shape batch_dims *
          slice_size_of params_shape indices_shape batch_dims := by
    calc slice * slice_size_of params_shape indices_shape batch_dims + j
        < (slice + 1) * slice_size_of params_shape indices_shape batch_dims := by
          have : (slice + 1) * slice_size_of params_shape indices_shape batch_dims
              = slice * slice_size_of params_shape indices_shape batch_dims +
                slice_size_of params_shape indices_shape batch_dims := by ring
          omega
      _ ≤ slices_per_batch_of indices_shape batch_dims *
            slice_size_of params_shape indices_shape batch_dims :=
          Nat.mul_le_mul_right _ (by omega)
  have htot : batch * slices_per_batch_of indices_shape batch_dims *
        slice_size_of params_shape indices_shape batch_dims +
      slice * slice_size_of params_shape indices_shape batch_dims + j
      < (gather_payload params indices params_shape indices_shape batch_dims).length := by
    rw [hplen, hpos]
    calc batch * (slices_per_batch_of indices_shape batch_dims *
          slice_size_of params_shape indices_shape batch_dims) +
        (slice * slice_size_of params_shape indices_shape batch_dims + j)
        < (batch + 1) * (slices_per_batch_of indices_shape batch_dims *
            slice_size_of params_shape indices_shape batch_dims) := by
          have : (batch + 1) * (slices_per_batch_of indices_shape batch_dims *
              slice_size_of params_shape indices_shape batch_dims)
              = batch * (slices_per_batch_of indices_shape batch_dims *
                  slice_size_of params_shape indices_shape batch_dims) +
                slices_per_batch_of indices_shape batch_dims *
                  slice_size_of params_shape indices_shape batch_dims := by ring
          omega
      _ ≤ batch_size_of params_shape batch_dims *
            (slices_per_batch_of indices_shape batch_dims *
              slice_size_of params_shape indices_shape batch_dims) :=
          Nat.mul_le_mul_right _ (by omega)
  calc (store out 0 (gather_payload params indices params_shape indices_shape batch_dims)).getD
        (batch * slices_per_batch_of indices_shape batch_dims *
            slice_size_of params_shape indices_shape batch_dims +
          slice * slice_size_of params_shape indices_shape batch_dims + j) default
      = (gather_payload params indices params_shape indices_shape batch_dims).getD
          (batch * slices_per_batch_of indices_shape batch_dims *
              slice_size_of params_shape indices_shape batch_dims +
            slice * slice_size_of params_shape indices_shape batch_dims + j) default := by
        have := getD_store_at
          (gather_payload params indices params_shape indices_shape batch_dims) out 0
          (batch * slices_per_batch_of indices_shape batch_dims *
              slice_size_of params_shape indices_shape batch_dims +
            slice * slice_size_of params_shape indices_shape batch_dims + j) default
          htot (by omega)
        simpa using this
    _ = (gather_payload params indices params_shape indices_shape batch_dims).getD
          (batch * (slices_per_batch_of indices_shape batch_dims *
              slice_size_of params_shape indices_shape batch_dims) +
            (slice * slice_size_of params_shape indices_shape batch_dims + j)) default := by
        rw [hpos]
    _ = ((List.range (slices_per_batch_of indices_shape batch_dims)).flatMap
          (fun s => slice_data params indices params_shape indices_shape batch_dims batch
            s)).getD
          (slice * slice_size_of params_shape indices_shape batch_dims + j) default := by
        exact flatMap_range_getD _ _ _ _ _ (fun b _ => hinlen b) hb hposlt
    _ = (slice_data params indices params_shape indices_shape batch_dims batch slice).getD
          j default :=
        flatMap_range_getD _ _ _ _ _
          (fun s _ => length_slice_data params indices params_shape indices_shape batch_dims
            batch s) hs hj
    _ = params.getD
          ((input_slice_offset_of indices params_shape indices_shape batch_dims batch
              slice).toNat + j) default := by
        unfold slice_data
        rw [List.getD_eq_getElem _ _ (by simpa using hj)]
        simp

/-- Witness for C1: two batches over `params_shape = [2,3]`,
`indices_shape = [2,1,1]`, `batch_dims = 1`; the cell written for
`batch = 1, slice = 0, j = 0` is `params[5] = 15` (the `-1` coordinate
resolves to axis extent `3` minus one). -/
theorem gather_nd_copies_slices_witness :
    ∃ res, gather_nd ([10, 11, 12, 13, 14, 15] : List Nat) [2, -1] [0, 0] [2, 3] [2, 1, 1]
        [2, 1] 1 = .ok res ∧
      res.getD (1 * slices_per_batch_of [2, 1, 1] 1 * slice_size_of [2, 3] [2, 1, 1] 1 +
          0 * slice_size_of [2, 3] [2, 1, 1] 1 + 0) default
        = ([10, 11, 12, 13, 14, 15] : List Nat).getD
            ((input_slice_offset_of [2, -1] [2, 3] [2, 1, 1] 1 1 0).toNat + 0) default ∧
      input_slice_offset_of [2, -1] [2, 3] [2, 1, 1] 1 1 0
        = ((1 * batch_offset_of [2, 3] [2, 1, 1] 1 : Nat) : Int) +
            ∑ c ∈ Finset.range (coordinates_size_of [2, 1, 1]),
              resolved_index [2, 3] 1 c
                  (([2, -1] : List Int).getD
                    (1 * slices_per_batch_of [2, 1, 1] 1 * coordinates_size_of [2, 1, 1] +
                        0 * coordinates_size_of [2, 1, 1] + c) 0) *
                ((indices_offsets_of [2, 3] [2, 1, 1] 1).getD c 0 : Int) :=
  gather_nd_copies_slices [10, 11, 12, 13, 14, 15] [2, -1] [0, 0] [2, 3] [2, 1, 1] [2, 1] 1
    (by decide) (by decide) (by decide) 1 0 0 (by decide) (by decide) (by decide) (by decide)

theorem input_slice_offset_set_neg (indices : List Int)
    (params_shape indices_shape : Shape) (batch_dims jpos : Nat)
    (hj : jpos < indices.length)
    (h0 : 0 ≤ indices.getD jpos 0)
    (h1 : indices.getD jpos 0 <
      (params_shape.getD (batch_dims + jpos % coordinates_size_of indices_shape) 0 : Int)) :
    ∀ (batch slice : Nat),
      input_slice_offset_of
          (indices.set jpos
            (indices.getD jpos 0 -
              (params_shape.getD (batch_dims + jpos % coordinates_size_of indices_shape) 0 :
                Int)))
          params_shape indices_shape batch_dims batch slice
        = input_slice_offset_of indices params_shape indices_shape batch_dims batch slice := by
  intro batch slice
  unfold input_slice_offset_of
  apply List.foldl_ext
  intro off c hc
  have hclt : c < coordinates_size_of indices_shape := List.mem_range.mp hc
  congr 2
  by_cases hP : batch * slices_per_batch_of indices_shape batch_dims *
        coordinates_size_of indices_shape +
      slice * coordinates_size_of indices_shape + c = jpos
  · rw [hP, getD_set_self _ _ _ _ hj]
    have hmod : jpos % coordinates_size_of indices_shape = c := by
      rw [← hP, show batch * slices_per_batch_of indices_shape batch_dims *
            coordinates_size_of indices_shape +
          slice * coordinates_size_of indices_shape + c
          = coordinates_size_of indices_shape *
              (batch * slices_per_batch_of indices_shape batch_dims + slice) + c from by ring,
        Nat.mul_add_mod]
      exact Nat.mod_eq_of_lt hclt
    rw [hmod] at h1 ⊢
    unfold resolved_index
    rw [if_pos (by omega), if_neg (by omega)]
    have hk : ((k_1_params_of params_shape batch_dims).get c : Int)
        = (params_shape.getD (batch_dims + c) 0 : Int) := rfl
    rw [hk]
    ring
  · rw [getD_set_ne _ _ _ (fun h => hP h.symm)]

/-- C5: replacing a non-negative in-range coordinate component `c` at flat
indices-buffer position `jpos` (addressing axis
`batch_dims + jpos % coordinate_width`) by `c - axis_size` leaves the result
of `gather_nd` unchanged on any input: a negative component is resolved by
adding the extent of the corresponding params axis, a non-negative one is
used as is. -/
theorem gather_nd_neg_index_equiv [Inhabited α] (params : List α) (indices : List Int)
    (out : List α) (params_shape indices_shape out_shape : Shape) (batch_dims jpos : Nat)
    (h0 : 0 ≤ indices.getD jpos 0)
    (h1 : indices.getD jpos 0 <
      (params_shape.getD (batch_dims + jpos % coordinates_size_of indices_shape) 0 : Int)) :
    gather_nd params
        (indices.set jpos
          (indices.getD jpos 0 -
            (params_shape.getD (batch_dims + jpos % coordinates_size_of indices_shape) 0 :
              Int)))
        out params_shape indices_shape out_shape batch_dims
      = gather_nd params indices out params_shape indices_shape out_shape batch_dims := by
  by_cases hj : jpos < indices.length
  case neg =>
    rw [set_oob indices jpos _ (by omega)]
  have hoff := input_slice_offset_set_neg indices params_shape indices_shape batch_dims jpos
    hj h0 h1
  unfold gather_nd
  by_cases hc1 : batch_dims ≠ 0 ∧
      batch_size_of params_shape batch_dims ≠ out_shape.headD 0
  · rw [if_pos hc1, if_pos hc1]
  rw [if_neg hc1, if_neg hc1]
  by_cases hc2 : params_shape.take batch_dims ≠ indices_shape.take batch_dims
  · rw [if_pos hc2, if_pos hc2]
  rw [if_neg hc2, if_neg hc2]
  by_cases hc3 : ¬ first_slice_index_in_params_of params_shape indices_shape batch_dims ≤
      params_shape.length
  · rw [if_pos hc3, if_pos hc3]
  rw [if_neg hc3, if_neg hc3]
  congr 1
  apply List.foldl_ext
  intro acc batch _
  apply List.foldl_ext
  intro acc2 slice _
  unfold slice_data
  rw [hoff batch slice]

/-- Witness for C5: `params_shape = [3]`, one width-1 coordinate `2`;
replacing it by `2 - 3 = -1` gives the same output. -/
theorem gather_nd_neg_index_equiv_witness :
    gather_nd ([10, 11, 12] : List Nat)
        (([2] : List Int).set 0
          ((([2] : List Int).getD 0 0) -
            (([3] : Shape).getD (0 + 0 % coordinates_size_of [1, 1]) 0 : Int)))
        [0] [3] [1, 1] [1, 3] 0
      = gather_nd ([10, 11, 12] : List Nat) [2] [0] [3] [1, 1] [1, 3] 0 :=
  gather_nd_neg_index_equiv [10, 11, 12] [2] [0] [3] [1, 1] [1, 3] 0 0 (by decide) (by decide)

theorem gather_write_positions_eq_range (params_shape indices_shape : Shape)
    (batch_dims : Nat) :
    gather_write_positions params_shape indices_shape batch_dims
      = List.range (batch_size_of params_shape batch_dims *
          slices_per_batch_of indices_shape batch_dims *
          slice_size_of params_shape indices_shape batch_dims) := by
  unfold gather_write_positions
  have hmid : ∀ batch : Nat,
      (List.range (slices_per_batch_of indices_shape batch_dims)).flatMap
        (fun slice => (List.range (slice_size_of params_shape indices_shape batch_dims)).map
          (fun j => batch * slices_per_batch_of indices_shape batch_dims *
                slice_size_of params_shape indices_shape batch_dims +
              slice * slice_size_of params_shape indices_shape batch_dims + j))
      = (List.range (slices_per_batch_of indices_shape batch_dims *
          slice_size_of params_shape indices_shape batch_dims)).map
          (fun p => batch * (slices_per_batch_of indices_shape batch_dims *
              slice_size_of params_shape indices_shape batch_dims) + p) := by
    intro batch
    calc (List.range (slices_per_batch_of indices_shape batch_dims)).flatMap
          (fun slice => (List.range (slice_size_of params_shape indices_shape batch_dims)).map
            (fun j => batch * slices_per_batch_of indices_shape batch_dims *
                  slice_size_of params_shape indices_shape batch_dims +
                slice * slice_size_of params_shape indices_shape batch_dims + j))
        = (List.range (slices_per_batch_of indices_shape batch_dims)).flatMap
            (fun slice => ((List.range (slice_size_of params_shape indices_shape
                batch_dims)).map
              (fun j => slice * slice_size_of params_shape indices_shape batch_dims + j)).map
              (fun p => batch * (slices_per_batch_of indices_shape batch_dims *
                  slice_size_of params_shape indices_shape batch_dims) + p)) := by
          apply flatMap_ext
          intro slice _
          rw [List.map_map]
          congr 1
          funext j
          simp only [Function.comp_apply]
          ring
      _ = ((List.range (slices_per_batch_of indices_shape batch_dims)).flatMap
            (fun slice => (List.range (slice_size_of params_shape indices_shape batch_dims)).map
              (fun j => slice * slice_size_of params_shape indices_shape batch_dims + j))).map
            (fun p => batch * (slices_per_batch_of indices_shape batch_dims *
                slice_size_of params_shape indices_shape batch_dims) + p) :=
          (List.map_flatMap _ _ _).symm
      _ = (List.range (slices_per_batch_of indices_shape batch_dims *
            slice_size_of params_shape indices_shape batch_dims)).map
            (fun p => batch * (slices_per_batch_of indices_shape batch_dims *
                slice_size_of params_shape indices_shape batch_dims) + p) := by
          rw [range_flatMap_mul]
  calc (List.range (batch_size_of params_shape batch_dims)).flatMap
        (fun batch =>
          (List.range (slices_per_batch_of indices_shape batch_dims)).flatMap
            (fun slice =>
              (List.range (slice_size_of params_shape indices_shape batch_dims)).map
                (fun j => batch * slices_per_batch_of indices_shape batch_dims *
                      slice_size_of params_shape indices_shape batch_dims +
                    slice * slice_size_of params_shape indices_shape batch_dims + j)))
      = (List.range (batch_size_of params_shape batch_dims)).flatMap
          (fun batch =>
            (List.range (slices_per_batch_of indices_shape batch_dims *
              slice_size_of params_shape indices_shape batch_dims)).map
              (fun p => batch * (slices_per_batch_of indices_shape batch_dims *
                  slice_size_of params_shape indices_shape batch_dims) + p)) :=
        flatMap_ext _ _ _ (fun batch _ => hmid batch)
    _ = List.range (batch_size_of params_shape batch_dims *
          (slices_per_batch_of indices_shape batch_dims *
            slice_size_of params_shape indices_shape batch_dims)) :=
        range_flatMap_mul _ _
    _ = List.range (batch_size_of params_shape batch_dims *
          slices_per_batch_of indices_shape batch_dims *
          slice_size_of params_shape indices_shape batch_dims) := by
        rw [Nat.mul_assoc]

/-- C2 counterexample: `params_shape = [2]`, `indices_shape = [1]`,
`out_shape = [5]`, `batch_dims = 0` satisfies invariants 1–3 (invariants 1 and
3 are vacuous for `batch_dims = 0`, invariant 2 holds, and the call succeeds),
yet the addressed region has
`batch_size × number_of_slices_per_batch × slice_size = 1` element while
`shape_size(out_shape) = 5`: the claim's size law does not follow from the
validated invariants, as the run — which leaves the 4 trailing cells of `out`
untouched — shows. -/
theorem gather_nd_size_law_cex :
    (([2] : Shape).take 0 = ([1] : Shape).take 0) ∧
      first_slice_index_in_params_of [2] [1] 0 ≤ ([2] : Shape).length ∧
      batch_size_of [2] 0 * slices_per_batch_of [1] 0 * slice_size_of [2] [1] 0 = 1 ∧
      shape_size [5] = 5 ∧
      gather_nd ([10, 20] : List Nat) [0] [9, 9, 9, 9, 9] [2] [1] [5] 0
        = .ok [10, 9, 9, 9, 9] ∧
      (1 : Nat) ≠ 5 :=
  ⟨by decide, by decide, by decide, by decide, rfl, by decide⟩

/-- C2 (amended): on a validated input `gather_nd` writes exactly the
destination offsets `[0, batch_size × slices × slice_size)`, each exactly once
(the write-position trace equals `List.range` of the region size), the written
values do not depend on the initial contents of `out` (two initial buffers of
equal length yield results that agree on the whole addressed region), cells at
or beyond the region keep their initial contents, and the addressed region has
exactly `shape_size(out_shape)` elements *when `out_shape` is the induced
output layout* `batch_shape ++ k_1_indices ++ slice_shape` — which validation
alone does not enforce (see the counterexample). -/
theorem gather_nd_writes_once [Inhabited α] (params : List α) (indices : List Int)
    (out : List α) (params_shape indices_shape out_shape : Shape) (batch_dims : Nat)
    (h1 : params_shape.take batch_dims = indices_shape.take batch_dims)
    (h2 : first_slice_index_in_params_of params_shape indices_shape batch_dims ≤
      params_shape.length)
    (h3 : batch_dims ≠ 0 → out_shape.headD 0 = batch_size_of params_shape batch_dims) :
    gather_write_positions params_shape indices_shape batch_dims
        = List.range (batch_size_of params_shape batch_dims *
            slices_per_batch_of indices_shape batch_dims *
            slice_size_of params_shape indices_shape batch_dims) ∧
      (∀ out2 : List α, out.length = out2.length →
        ∃ r1 r2,
          gather_nd params indices out params_shape indices_shape out_shape batch_dims
              = .ok r1 ∧
            gather_nd params indices out2 params_shape indices_shape out_shape batch_dims
              = .ok r2 ∧
            (∀ p < batch_size_of params_shape batch_dims *
                slices_per_batch_of indices_shape batch_dims *
                slice_size_of params_shape indices_shape batch_dims,
              r1.getD p default = r2.getD p default) ∧
            (∀ p, batch_size_of params_shape batch_dims *
                slices_per_batch_of indices_shape batch_dims *
                slice_size_of params_shape indices_shape batch_dims ≤ p →
              r1.getD p default = out.getD p default)) ∧
      (out_shape = params_shape.take batch_dims ++
          (k_1_indices_of indices_shape batch_dims).toList ++
          slice_shape_of params_shape indices_shape batch_dims →
        shape_size out_shape
          = batch_size_of params_shape batch_dims *
              slices_per_batch_of indices_shape batch_dims *
              slice_size_of params_shape indices_shape batch_dims) := by
  have hv1 : ¬(batch_dims ≠ 0 ∧
      batch_size_of params_shape batch_dims ≠ out_shape.headD 0) := by
    rintro ⟨hb0, hne⟩
    exact hne (h3 hb0).symm
  have hinlen : ∀ b, ((List.range (slices_per_batch_of indices_shape batch_dims)).flatMap
      (fun s => slice_data params indices params_shape indices_shape batch_dims b s)).length
      = slices_per_batch_of indices_shape batch_dims *
          slice_size_of params_shape indices_shape batch_dims := fun b =>
    length_flatMap_uniform _ _ _
      (fun s _ => length_slice_data params indices params_shape indices_shape batch_dims b s)
  have hplen0 : (gather_payload params indices params_shape indices_shape batch_dims).length
      = batch_size_of params_shape batch_dims *
          (slices_per_batch_of indices_shape batch_dims *
            slice_size_of params_shape indices_shape batch_dims) :=
    length_flatMap_uniform _ _ _ (fun b _ => hinlen b)
  have hplen : (gather_payload params indices params_shape indices_shape batch_dims).length
      = batch_size_of params_shape batch_dims *
          slices_per_batch_of indices_shape batch_dims *
          slice_size_of params_shape indices_shape batch_dims := by
    rw [hplen0, Nat.mul_assoc]
  refine ⟨gather_write_positions_eq_range params_shape indices_shape batch_dims, ?_, ?_⟩
  · intro out2 hlen
    refine ⟨_, _,
      gather_nd_eq_store params indices out params_shape indices_shape out_shape batch_dims
        hv1 h1 h2,
      gather_nd_eq_store params indices out2 params_shape indices_shape out_shape batch_dims
        hv1 h1 h2, ?_, ?_⟩
    · intro p hp
      rcases Nat.lt_or_ge p out.length with hin | hoob
      · have e1 := getD_store_at
          (gather_payload params indices params_shape indices_shape batch_dims) out 0 p
          default (by omega) (by omega)
        have e2 := getD_store_at
          (gather_payload params indices params_shape indices_shape batch_dims) out2 0 p
          default (by omega) (by omega)
        simp only [Nat.zero_add] at e1 e2
        rw [e1, e2]
      · rw [getD_oob _ _ _ (by rw [length_store]; omega),
          getD_oob _ _ _ (by rw [length_store]; omega)]
    · intro p hp
      exact getD_store_ge _ _ _ _ _ (by omega)
  · intro hosh
    rw [hosh]
    unfold shape_size batch_size_of slices_per_batch_of slice_size_of shape_size
    rw [List.prod_append, List.prod_append]

/-- Witness for the amended C2 at `params_shape = [2,3]`,
`indices_shape = [2,1,1]`, `batch_dims = 1`, `out_shape = [2,1]` (the induced
layout, of size 2 = region size). -/
theorem gather_nd_writes_once_witness :
    gather_write_positions [2, 3] [2, 1, 1] 1
        = List.range (batch_size_of [2, 3] 1 * slices_per_batch_of [2, 1, 1] 1 *
            slice_size_of [2, 3] [2, 1, 1] 1) ∧
      (∀ out2 : List Nat, ([0, 0] : List Nat).length = out2.length →
        ∃ r1 r2,
          gather_nd ([10, 11, 12, 13, 14, 15] : List Nat) [2, -1] [0, 0] [2, 3] [2, 1, 1]
              [2, 1] 1 = .ok r1 ∧
            gather_nd ([10, 11, 12, 13, 14, 15] : List Nat) [2, -1] out2 [2, 3] [2, 1, 1]
              [2, 1] 1 = .ok r2 ∧
            (∀ p < batch_size_of [2, 3] 1 * slices_per_batch_of [2, 1, 1] 1 *
                slice_size_of [2, 3] [2, 1, 1] 1,
              r1.getD p default = r2.getD p default) ∧
            (∀ p, batch_size_of [2, 3] 1 * slices_per_batch_of [2, 1, 1] 1 *
                slice_size_of [2, 3] [2, 1, 1] 1 ≤ p →
              r1.getD p default = ([0, 0] : List Nat).getD p default)) ∧
      (([2, 1] : Shape) = ([2, 3] : Shape).take 1 ++
          (k_1_indices_of [2, 1, 1] 1).toList ++ slice_shape_of [2, 3] [2, 1, 1] 1 →
        shape_size [2, 1]
          = batch_size_of [2, 3] 1 * slices_per_batch_of [2, 1, 1] 1 *
              slice_size_of [2, 3] [2, 1, 1] 1) :=
  gather_nd_writes_once [10, 11, 12, 13, 14, 15] [2, -1] [0, 0] [2, 3] [2, 1, 1] [2, 1] 1
    (by decide) (by decide) (by decide)

theorem slice_data_batch_drop [Inhabited α] (params : List α) (indices : List Int)
    (params_shape indices_shape : Shape) (batch_dims : Nat)
    (h2 : first_slice_index_in_params_of params_shape indices_shape batch_dims ≤
      params_shape.length)
    (hbdi : batch_dims < indices_shape.length)
    (hcw : 1 ≤ coordinates_size_of indices_shape)
    (b s : Nat)
    (hs : s < slices_per_batch_of indices_shape batch_dims)
    (hidx : ∀ c < coordinates_size_of indices_shape,
      0 ≤ resolved_index params_shape batch_dims c
          (indices.getD
            (b * slices_per_batch_of indices_shape batch_dims *
                  coordinates_size_of indices_shape +
                s * coordinates_size_of indices_shape + c) 0) ∧
        resolved_index params_shape batch_dims c
            (indices.getD
              (b * slices_per_batch_of indices_shape batch_dims *
                    coordinates_size_of indices_shape +
                  s * coordinates_size_of indices_shape + c) 0)
          < (params_shape.getD (batch_dims + c) 0 : Int)) :
    slice_data
        ((params.drop (b * shape_size (params_shape.drop batch_dims))).take
          (shape_size (params_shape.drop batch_dims)))
        ((indices.drop (b * (slices_per_batch_of indices_shape batch_dims *
            coordinates_size_of indices_shape))).take
          (slices_per_batch_of indices_shape batch_dims *
            coordinates_size_of indices_shape))
        (params_shape.drop batch_dims) (indices_shape.drop batch_dims) 0 0 s
      = slice_data params indices params_shape indices_shape batch_dims b s := by
  have hread : ∀ c < coordinates_size_of indices_shape, s <
      slices_per_batch_of indices_shape batch_dims →
      ((indices.drop (b * (slices_per_batch_of indices_shape batch_dims *
          coordinates_size_of indices_shape))).take
        (slices_per_batch_of indices_shape batch_dims *
          coordinates_size_of indices_shape)).getD
          (s * coordinates_size_of indices_shape + c) 0
        = indices.getD
            (b * slices_per_batch_of indices_shape batch_dims *
                  coordinates_size_of indices_shape +
                s * coordinates_size_of indices_shape + c) 0 := by
    intro c hc hsN
    have hpos : s * coordinates_size_of indices_shape + c
        < slices_per_batch_of indices_shape batch_dims *
            coordinates_size_of indices_shape := by
      calc s * coordinates_size_of indices_shape + c
          < (s + 1) * coordinates_size_of indices_shape := by
            have : (s + 1) * coordinates_size_of indices_shape
                = s * coordinates_size_of indices_shape +
                  coordinates_size_of indices_shape := by ring
            omega
        _ ≤ slices_per_batch_of indices_shape batch_dims *
              coordinates_size_of indices_shape :=
            Nat.mul_le_mul_right _ (by omega)
    rw [getD_take _ 0 hpos, getD_drop]
    congr 1
    ring
  have hsum2 : input_slice_offset_of
      ((indices.drop (b * (slices_per_batch_of indices_shape batch_dims *
          coordinates_size_of indices_shape))).take
        (slices_per_batch_of indices_shape batch_dims *
          coordinates_size_of indices_shape))
      (params_shape.drop batch_dims) (indices_shape.drop batch_dims) 0 0 s
      = ∑ c ∈ Finset.range (coordinates_size_of indices_shape),
          resolved_index params_shape batch_dims c
              (indices.getD
                (b * slices_per_batch_of indices_shape batch_dims *
                      coordinates_size_of indices_shape +
                    s * coordinates_size_of indices_shape + c) 0) *
            ((indices_offsets_of params_shape indices_shape batch_dims).getD c 0 : Int) := by
    refine (foldl_add_eq_sum _ _ _).trans ?_
    simp only [Nat.zero_mul, Nat.cast_zero, zero_add]
    refine Finset.sum_congr
      (by rw [coordinates_size_drop indices_shape batch_dims hbdi]) ?_
    intro c hcm
    have hc : c < coordinates_size_of indices_shape := Finset.mem_range.mp hcm
    rw [resolved_index_drop,
      indices_offsets_drop params_shape indices_shape batch_dims hcw h2 hbdi,
      coordinates_size_drop indices_shape batch_dims hbdi,
      hread c hc hs]
  have hsum1 : input_slice_offset_of indices params_shape indices_shape batch_dims b s
      = ((b * (params_shape.drop batch_dims).prod : Nat) : Int) +
          ∑ c ∈ Finset.range (coordinates_size_of indices_shape),
            resolved_index params_shape batch_dims c
                (indices.getD
                  (b * slices_per_batch_of indices_shape batch_dims *
                        coordinates_size_of indices_shape +
                      s * coordinates_size_of indices_shape + c) 0) *
              ((indices_offsets_of params_shape indices_shape batch_dims).getD c 0 : Int) := by
    refine (foldl_add_eq_sum _ _ _).trans ?_
    rw [batch_offset_eq_prod params_shape indices_shape batch_dims hcw h2]
  have hcast : ∑ c ∈ Finset.range (coordinates_size_of indices_shape),
        resolved_index params_shape batch_dims c
            (indices.getD
              (b * slices_per_batch_of indices_shape batch_dims *
                    coordinates_size_of indices_shape +
                  s * coordinates_size_of indices_shape + c) 0) *
          ((indices_offsets_of params_shape indices_shape batch_dims).getD c 0 : Int)
      = ((∑ c ∈ Finset.range (coordinates_size_of indices_shape),
          (resolved_index params_shape batch_dims c
              (indices.getD
                (b * slices_per_batch_of indices_shape batch_dims *
                      coordinates_size_of indices_shape +
                    s * coordinates_size_of indices_shape + c) 0)).toNat *
            (indices_offsets_of params_shape indices_shape batch_dims).getD c 0 : Nat) :
          Int) := by
    rw [Nat.cast_sum]
    refine Finset.sum_congr rfl ?_
    intro c hcm
    have hc : c < coordinates_size_of indices_shape := Finset.mem_range.mp hcm
    rw [Nat.cast_mul, Int.toNat_of_nonneg (hidx c hc).1]
  have hq : coordinates_size_of indices_shape ≤ (params_shape.drop batch_dims).length := by
    rw [List.length_drop]
    unfold first_slice_index_in_params_of at h2
    omega
  have hr : ∀ c < coordinates_size_of indices_shape,
      (resolved_index params_shape batch_dims c
          (indices.getD
            (b * slices_per_batch_of indices_shape batch_dims *
                  coordinates_size_of indices_shape +
                s * coordinates_size_of indices_shape + c) 0)).toNat
        < (params_shape.drop batch_dims).getD c 0 := by
    intro c hc
    rw [getD_drop]
    exact (Int.toNat_lt (hidx c hc).1).mpr (hidx c hc).2
  have hDeq : ∑ c ∈ Finset.range (coordinates_size_of indices_shape),
        (resolved_index params_shape batch_dims c
            (indices.getD
              (b * slices_per_batch_of indices_shape batch_dims *
                    coordinates_size_of indices_shape +
                  s * coordinates_size_of indices_shape + c) 0)).toNat *
          (indices_offsets_of params_shape indices_shape batch_dims).getD c 0
      = ∑ c ∈ Finset.range (coordinates_size_of indices_shape),
          (resolved_index params_shape batch_dims c
              (indices.getD
                (b * slices_per_batch_of indices_shape batch_dims *
                      coordinates_size_of indices_shape +
                    s * coordinates_size_of indices_shape + c) 0)).toNat *
            ((params_shape.drop batch_dims).drop (c + 1)).prod := by
    refine Finset.sum_congr rfl ?_
    intro c hcm
    have hc : c < coordinates_size_of indices_shape := Finset.mem_range.mp hcm
    rw [indices_offsets_getD_prod params_shape indices_shape batch_dims c h2 hc,
      List.drop_drop, show batch_dims + (c + 1) = batch_dims + 1 + c from by omega]
  have hS : slice_size_of params_shape indices_shape batch_dims
      = ((params_shape.drop batch_dims).drop (coordinates_size_of indices_shape)).prod := by
    unfold slice_size_of slice_shape_of shape_size first_slice_index_in_params_of
    rw [List.drop_drop]
  have hbound : ∀ j < slice_size_of params_shape indices_shape batch_dims,
      (∑ c ∈ Finset.range (coordinates_size_of indices_shape),
        (resolved_index params_shape batch_dims c
            (indices.getD
              (b * slices_per_batch_of indices_shape batch_dims *
                    coordinates_size_of indices_shape +
                  s * coordinates_size_of indices_shape + c) 0)).toNat *
          (indices_offsets_of params_shape indices_shape batch_dims).getD c 0) + j
        < shape_size (params_shape.drop batch_dims) := by
    intro j hj
    have hdot := dot_lt_prod (params_shape.drop batch_dims)
      (coordinates_size_of indices_shape) hq _ hr
    rw [hDeq]
    rw [hS] at hj
    unfold shape_size
    omega
  unfold slice_data
  rw [slice_size_drop params_shape indices_shape batch_dims hbdi]
  apply map_ext
  intro j hjm
  have hj : j < slice_size_of params_shape indices_shape batch_dims := List.mem_range.mp hjm
  rw [hsum2, hcast, hsum1, hcast, Int.toNat_natCast, ← Nat.cast_add, Int.toNat_natCast]
  rw [getD_take _ default (hbound j hj), getD_drop]
  congr 1
  unfold shape_size
  ring

/-- C8: a valid multi-batch call (`batch_dims > 0`, validation passing,
coordinates resolving in range, `out` sized to the addressed region) equals
the concatenation, in batch order, of one `gather_nd` call per batch with
`batch_dims = 0` and each shape stripped of its batch prefix: the per-batch
call on the `b`-th blocks of `params`/`indices`/`out` returns exactly the
`b`-th block of the combined result `R`, and those blocks concatenate to
`R`. -/
theorem gather_nd_batch_split [Inhabited α] (params : List α) (indices : List Int)
    (out : List α) (params_shape indices_shape out_shape : Shape) (batch_dims : Nat)
    (h1 : params_shape.take batch_dims = indices_shape.take batch_dims)
    (h2 : first_slice_index_in_params_of params_shape indices_shape batch_dims ≤
      params_shape.length)
    (h3 : batch_dims ≠ 0 → out_shape.headD 0 = batch_size_of params_shape batch_dims)
    (hbd0 : batch_dims ≠ 0)
    (hbdi : batch_dims < indices_shape.length)
    (hcw : 1 ≤ coordinates_size_of indices_shape)
    (hlen : out.length = batch_size_of params_shape batch_dims *
      (slices_per_batch_of indices_shape batch_dims *
        slice_size_of params_shape indices_shape batch_dims))
    (hidx : ∀ b < batch_size_of params_shape batch_dims,
      ∀ s < slices_per_batch_of indices_shape batch_dims,
      ∀ c < coordinates_size_of indices_shape,
      0 ≤ resolved_index params_shape batch_dims c
          (indices.getD
            (b * slices_per_batch_of indices_shape batch_dims *
                  coordinates_size_of indices_shape +
                s * coordinates_size_of indices_shape + c) 0) ∧
        resolved_index params_shape batch_dims c
            (indices.getD
              (b * slices_per_batch_of indices_shape batch_dims *
                    coordinates_size_of indices_shape +
                  s * coordinates_size_of indices_shape + c) 0)
          < (params_shape.getD (batch_dims + c) 0 : Int))
    (R : List α)
    (hR : gather_nd params indices out params_shape indices_shape out_shape batch_dims
      = .ok R) :
    ((List.range (batch_size_of params_shape batch_dims)).flatMap
        (fun b => (R.drop (b * (slices_per_batch_of indices_shape batch_dims *
            slice_size_of params_shape indices_shape batch_dims))).take
          (slices_per_batch_of indices_shape batch_dims *
            slice_size_of params_shape indices_shape batch_dims)) = R) ∧
      ∀ b < batch_size_of params_shape batch_dims,
        gather_nd
            ((params.drop (b * shape_size (params_shape.drop batch_dims))).take
              (shape_size (params_shape.drop batch_dims)))
            ((indices.drop (b * (slices_per_batch_of indices_shape batch_dims *
                coordinates_size_of indices_shape))).take
              (slices_per_batch_of indices_shape batch_dims *
                coordinates_size_of indices_shape))
            ((out.drop (b * (slices_per_batch_of indices_shape batch_dims *
                slice_size_of params_shape indices_shape batch_dims))).take
              (slices_per_batch_of indices_shape batch_dims *
                slice_size_of params_shape indices_shape batch_dims))
            (params_shape.drop batch_dims) (indices_shape.drop batch_dims)
            (out_shape.drop 1) 0
          = .ok ((R.drop (b * (slices_per_batch_of indices_shape batch_dims *
              slice_size_of params_shape indices_shape batch_dims))).take
            (slices_per_batch_of indices_shape batch_dims *
              slice_size_of params_shape indices_shape batch_dims)) := by
  have hv1 : ¬(batch_dims ≠ 0 ∧
      batch_size_of params_shape batch_dims ≠ out_shape.headD 0) := by
    rintro ⟨hb0, hne⟩
    exact hne (h3 hb0).symm
  have hok := gather_nd_eq_store params indices out params_shape indices_shape out_shape
    batch_dims hv1 h1 h2
  have hstoreR : store out 0 (gather_payload params indices params_shape indices_shape
      batch_dims) = R := Except.ok.inj (hok.symm.trans hR)
  have hinlen : ∀ b, ((List.range (slices_per_batch_of indices_shape batch_dims)).flatMap
      (fun s => slice_data params indices params_shape indices_shape batch_dims b s)).length
      = slices_per_batch_of indices_shape batch_dims *
          slice_size_of params_shape indices_shape batch_dims := fun b =>
    length_flatMap_uniform _ _ _
      (fun s _ => length_slice_data params indices params_shape indices_shape batch_dims b s)
  have hGlen : (gather_payload params indices params_shape indices_shape batch_dims).length
      = batch_size_of params_shape batch_dims *
          (slices_per_batch_of indices_shape batch_dims *
            slice_size_of params_shape indices_shape batch_dims) :=
    length_flatMap_uniform _ _ _ (fun b _ => hinlen b)
  have hRG : R = gather_payload params indices params_shape indices_shape batch_dims :=
    hstoreR.symm.trans (store_all _ out (by rw [hGlen, hlen]))
  have hseg : ∀ b < batch_size_of params_shape batch_dims,
      (R.drop (b * (slices_per_batch_of indices_shape batch_dims *
          slice_size_of params_shape indices_shape batch_dims))).take
        (slices_per_batch_of indices_shape batch_dims *
          slice_size_of params_shape indices_shape batch_dims)
      = (List.range (slices_per_batch_of indices_shape batch_dims)).flatMap
          (fun s => slice_data params indices params_shape indices_shape batch_dims b s) := by
    intro b hb
    rw [hRG]
    exact flatMap_range_segment _ _ _ b (fun i _ => hinlen i) hb
  constructor
  · refine (flatMap_ext _ _
      (fun b => (List.range (slices_per_batch_of indices_shape batch_dims)).flatMap
        (fun s => slice_data params indices params_shape indices_shape batch_dims b s))
      (fun b hbm => hseg b (List.mem_range.mp hbm))).trans ?_
    exact hRG.symm
  · intro b hb
    have hfsi2 : first_slice_index_in_params_of (params_shape.drop batch_dims)
        (indices_shape.drop batch_dims) 0 ≤ (params_shape.drop batch_dims).length := by
      rw [first_slice_index_drop params_shape indices_shape batch_dims hbdi,
        List.length_drop]
      unfold first_slice_index_in_params_of at h2
      omega
    have hok2 := gather_nd_eq_store
      ((params.drop (b * shape_size (params_shape.drop batch_dims))).take
        (shape_size (params_shape.drop batch_dims)))
      ((indices.drop (b * (slices_per_batch_of indices_shape batch_dims *
          coordinates_size_of indices_shape))).take
        (slices_per_batch_of indices_shape batch_dims *
          coordinates_size_of indices_shape))
      ((out.drop (b * (slices_per_batch_of indices_shape batch_dims *
          slice_size_of params_shape indices_shape batch_dims))).take
        (slices_per_batch_of indices_shape batch_dims *
          slice_size_of params_shape indices_shape batch_dims))
      (params_shape.drop batch_dims) (indices_shape.drop batch_dims) (out_shape.drop 1) 0
      (by simp) rfl hfsi2
    rw [hok2]
    congr 1
    have hG2 : gather_payload
        ((params.drop (b * shape_size (params_shape.drop batch_dims))).take
          (shape_size (params_shape.drop batch_dims)))
        ((indices.drop (b * (slices_per_batch_of indices_shape batch_dims *
            coordinates_size_of indices_shape))).take
          (slices_per_batch_of indices_shape batch_dims *
            coordinates_size_of indices_shape))
        (params_shape.drop batch_dims) (indices_shape.drop batch_dims) 0
        = (List.range (slices_per_batch_of indices_shape batch_dims)).flatMap
            (fun s => slice_data params indices params_shape indices_shape batch_dims
              b s) := by
      unfold gather_payload
      rw [show batch_size_of (params_shape.drop batch_dims) 0 = 1 from rfl,
        show List.range 1 = [0] from rfl, List.flatMap_singleton,
        slices_per_batch_drop indices_shape batch_dims hbdi]
      apply flatMap_ext
      intro s hsm
      exact slice_data_batch_drop params indices params_shape indices_shape batch_dims h2
        hbdi hcw b s (List.mem_range.mp hsm)
        (fun c hc => hidx b hb s (List.mem_range.mp hsm) c hc)
    rw [hG2, hseg b hb]
    apply store_all
    rw [hinlen b, List.length_take, List.length_drop, hlen]
    have hm : slices_per_batch_of indices_shape batch_dims *
          slice_size_of params_shape indices_shape batch_dims
        ≤ batch_size_of params_shape batch_dims *
            (slices_per_batch_of indices_shape batch_dims *
              slice_size_of params_shape indices_shape batch_dims) -
          b * (slices_per_batch_of indices_shape batch_dims *
            slice_size_of params_shape indices_shape batch_dims) := by
      have hb1 : (b + 1) * (slices_per_batch_of indices_shape batch_dims *
          slice_size_of params_shape indices_shape batch_dims)
          ≤ batch_size_of params_shape batch_dims *
              (slices_per_batch_of indices_shape batch_dims *
                slice_size_of params_shape indices_shape batch_dims) :=
        Nat.mul_le_mul_right _ (by omega)
      have hb2 : (b + 1) * (slices_per_batch_of indices_shape batch_dims *
          slice_size_of params_shape indices_shape batch_dims)
          = b * (slices_per_batch_of indices_shape batch_dims *
              slice_size_of params_shape indices_shape batch_dims) +
            slices_per_batch_of indices_shape batch_dims *
              slice_size_of params_shape indices_shape batch_dims := by ring
      omega
    omega

/-- Witness for C8: `params_shape = [2,2]`, `indices_shape = [2,1,1]`,
`batch_dims = 1`, two batches with coordinates `[1]` and `[0]`. -/
theorem gather_nd_batch_split_witness :
    ((List.range (batch_size_of [2, 2] 1)).flatMap
        (fun b => (([11, 12] : List Nat).drop (b * (slices_per_batch_of [2, 1, 1] 1 *
            slice_size_of [2, 2] [2, 1, 1] 1))).take
          (slices_per_batch_of [2, 1, 1] 1 * slice_size_of [2, 2] [2, 1, 1] 1))
        = [11, 12]) ∧
      ∀ b < batch_size_of [2, 2] 1,
        gather_nd
            ((([10, 11, 12, 13] : List Nat).drop
              (b * shape_size (([2, 2] : Shape).drop 1))).take
              (shape_size (([2, 2] : Shape).drop 1)))
            ((([1, 0] : List Int).drop (b * (slices_per_batch_of [2, 1, 1] 1 *
                coordinates_size_of [2, 1, 1]))).take
              (slices_per_batch_of [2, 1, 1] 1 * coordinates_size_of [2, 1, 1]))
            ((([0, 0] : List Nat).drop (b * (slices_per_batch_of [2, 1, 1] 1 *
                slice_size_of [2, 2] [2, 1, 1] 1))).take
              (slices_per_batch_of [2, 1, 1] 1 * slice_size_of [2, 2] [2, 1, 1] 1))
            (([2, 2] : Shape).drop 1) (([2, 1, 1] : Shape).drop 1)
            (([2, 1] : Shape).drop 1) 0
          = .ok ((([11, 12] : List Nat).drop (b * (slices_per_batch_of [2, 1, 1] 1 *
              slice_size_of [2, 2] [2, 1, 1] 1))).take
            (slices_per_batch_of [2, 1, 1] 1 * slice_size_of [2, 2] [2, 1, 1] 1)) :=
  gather_nd_batch_split [10, 11, 12, 13] [1, 0] [0, 0] [2, 2] [2, 1, 1] [2, 1] 1
    (by decide) (by decide) (by decide) (by decide) (by decide) (by decide) (by decide)
    (by decide) [11, 12] rfl

end NGraph
